import Mathlib

/-!
# memory_search.cc : the `search` ranking primitive

A shallow embedding of `src/native-core/memory-engine/memory_search.cc`.

The C++ function `Search` receives JavaScript values through the N-API
binding layer, reads a query and a list of rows out of them, filters the rows,
sorts them with `std::sort` by a 64-bit score and returns the first `limit` of
them as a fresh JavaScript array.

Modelling decisions, all stated where they are made:

* JavaScript values are a small inductive type (`JsValue`).  Numbers are the
  finite, integer-valued ones; strings are sequences of Unicode scalars;
  objects are plain key/value records.
* A failed N-API conversion raises a JavaScript exception, so every reader is
  `Except NapiError _` and `Search` returns `Except NapiError JsValue`.
* C++ integers are `Int` with explicit wrap-around into the width of the
  variable that holds them.
* `std::sort` is a parameter: any function that returns a permutation of its
  input ordered with respect to the comparator (`StdSort`).
-/

namespace MemorySearch

/-! ## Machine integers -/

/-- The value of a C++ `int32_t` holding the low 32 bits of `z`. -/
def wrap32 (z : Int) : Int := (z + 2 ^ 31) % 2 ^ 32 - 2 ^ 31

/-- The value of a C++ `int64_t` / `long long` holding the low 64 bits of `z`
(two's complement wrap-around of signed arithmetic). -/
def wrap64 (z : Int) : Int := (z + 2 ^ 63) % 2 ^ 64 - 2 ^ 63

/-- Saturation of `z` into the `int64_t` range. -/
def clamp64 (z : Int) : Int := max (-(2 ^ 63)) (min z (2 ^ 63 - 1))

/-- Number of low bits that are dropped to bring `m` below `2 ^ 53`. -/
def dropBits : Nat → Nat → Nat
  | 0, _ => 0
  | fuel + 1, m => if m < 2 ^ 53 then 0 else dropBits fuel (m / 2) + 1

/-- Round a natural number below `2 ^ 64` to the nearest one with a 53-bit
significand, ties to even: the magnitude of `(double)x`. -/
def roundNat53 (m : Nat) : Nat :=
  let e := dropBits 11 m
  let q := m / 2 ^ e
  let r := m % 2 ^ e
  if 2 * r < 2 ^ e then q * 2 ^ e
  else if 2 ^ e < 2 * r then (q + 1) * 2 ^ e
  else if q % 2 = 0 then q * 2 ^ e
  else (q + 1) * 2 ^ e

/-- The C++ cast `(double)x` of a 64-bit integer, as the integer the resulting
double denotes. -/
def toDouble (z : Int) : Int :=
  if z < 0 then -((roundNat53 z.natAbs : Nat) : Int) else ((roundNat53 z.natAbs : Nat) : Int)

/-! ## JavaScript values as seen through N-API -/

/-- JavaScript values.  `number n` is a finite Number whose value is the
integer `n` (NaN, the infinities and fractions are left out); `string s` is a
string of Unicode scalar values; `object` is a plain record of own data
properties (no prototype chain, no getters); an `array` is also an object for
`IsObject`. -/
inductive JsValue where
  | undefined : JsValue
  | null : JsValue
  | boolean (b : Bool) : JsValue
  | number (n : Int) : JsValue
  | string (s : String) : JsValue
  | object (props : List (String × JsValue)) : JsValue
  | array (items : List JsValue) : JsValue

/-- The JavaScript exceptions a call of `search` can end with. -/
inductive NapiError where
  /-- `TypeError("Usage: search(rows:Array, query:Object)")`, line 19. -/
  | usage : NapiError
  /-- N-API status `napi_number_expected`, raised by `Int32Value` / `Int64Value`. -/
  | numberExpected : NapiError
  /-- N-API status `napi_string_expected`, raised by `Utf8Value`. -/
  | stringExpected : NapiError
  deriving DecidableEq, Repr

namespace JsValue

/-- `Value::IsArray()`. -/
def isArray : JsValue → Bool
  | array _ => true
  | _ => false

/-- `Value::IsObject()`: true of objects and of arrays. -/
def isObject : JsValue → Bool
  | object _ => true
  | array _ => true
  | _ => false

/-- `Object::Has(key)` for the string keys the code asks for. -/
def has : JsValue → String → Bool
  | object props, key => (props.lookup key).isSome
  | _, _ => false

/-- `Object::Get(key)`: the property, or `undefined` when there is none. -/
def get : JsValue → String → JsValue
  | object props, key => (props.lookup key).getD undefined
  | _, _ => undefined

/-- `As<Number>().Int32Value()`: the low 32 bits of a number, an exception on
anything that is not a number. -/
def int32Value : JsValue → Except NapiError Int
  | number n => .ok (wrap32 n)
  | _ => .error .numberExpected

/-- `As<Number>().Int64Value()`: the number, saturated into the 64-bit range
when it lies outside, an exception on anything that is not a number. -/
def int64Value : JsValue → Except NapiError Int
  | number n => .ok (clamp64 n)
  | _ => .error .numberExpected

/-- `As<String>().Utf8Value()`: the text of a string, an exception on anything
that is not a string. -/
def utf8Value : JsValue → Except NapiError String
  | string s => .ok s
  | _ => .error .stringExpected

end JsValue

/-! ## The data of `Search` -/

/-- `struct Row` (lines 8-14). -/
structure Row where
  id : Int
  ts : Int
  importance : Int
  topic : String
  content : String
  deriving DecidableEq, Repr

/-- The three locals read from the query object (lines 25-27). -/
structure Query where
  topicFilter : String
  importanceMin : Int
  limit : Int
  deriving DecidableEq, Repr

/-- Lines 25-27: read the query, with the defaults `""`, `1` and `50` for the
properties the object does not have. -/
def readQuery (q : JsValue) : Except NapiError Query := do
  let topicFilter ← (if q.has "topic" then (q.get "topic").utf8Value else pure "")
  let importanceMin ←
    (if q.has "importance_min" then (q.get "importance_min").int32Value else pure 1)
  let limit ← (if q.has "limit" then (q.get "limit").int32Value else pure 50)
  pure (Query.mk topicFilter importanceMin limit)

/-- Lines 33-38: read the five fields of one entry. -/
def readRow (r : JsValue) : Except NapiError Row := do
  let id ← (r.get "id").int64Value
  let ts ← (r.get "ts").int64Value
  let importance ← (r.get "importance").int32Value
  let topic ← (r.get "topic").utf8Value
  let content ← (r.get "content").utf8Value
  pure (Row.mk id ts importance topic content)

/-- One iteration of the loop of lines 30-42 on the entry `v`, with `buff`
the vector built so far. -/
def collectStep (q : Query) (buff : List Row) (v : JsValue) : Except NapiError (List Row) :=
  if !v.isObject then pure buff
  else do
    let row ← readRow v
    if q.topicFilter ≠ "" ∧ row.topic ≠ q.topicFilter then pure buff
    else if row.importance < q.importanceMin then pure buff
    else pure (buff ++ [row])

/-- The loop of lines 30-42 over all entries, from the vector `buff`. -/
def collectFrom (q : Query) : List Row → List JsValue → Except NapiError (List Row)
  | buff, [] => pure buff
  | buff, v :: vs => do
    let buff1 ← collectStep q buff v
    collectFrom q buff1 vs

/-- Lines 29-42: the vector `buff` after the loop. -/
def collect (q : Query) (rows : List JsValue) : Except NapiError (List Row) :=
  collectFrom q [] rows

/-- Lines 46-47: the score the comparator computes, in `long long`; signed
overflow is two's complement wrap-around. -/
def score (r : Row) : Int := wrap64 (wrap64 (r.importance * 100000) + r.ts)

/-- Lines 45-49: the comparator handed to `std::sort`. -/
def comp (a b : Row) : Bool := decide (score a > score b)

/-- What the C++ standard promises of `std::sort(first, last, comp)`: the
range afterwards is a rearrangement of the range before, and no element is
ordered by `comp` before an earlier one. -/
structure StdSort where
  run : List Row → List Row
  perm : ∀ l, (run l).Perm l
  sorted : ∀ l, (run l).Pairwise (fun a b => comp b a = false)

/-- Lines 54-59: the object built for one row. -/
def rowToJs (r : Row) : JsValue :=
  .object [("id", .number (toDouble r.id)), ("ts", .number (toDouble r.ts)),
    ("importance", .number r.importance), ("topic", .string r.topic),
    ("content", .string r.content)]

/-- Line 52: `std::min((int)buff.size(), limit)`, the cast to `int` keeping
the low 32 bits. -/
def outCount (buff : List Row) (limit : Int) : Int := min (wrap32 (buff.length : Int)) limit

/-- Lines 51-62: the array of the first `count` rows. -/
def emit (buff : List Row) (limit : Int) : JsValue :=
  .array ((buff.take (outCount buff limit).toNat).map rowToJs)

/-- `info[i]`: the `i`-th argument, `undefined` past the end. -/
def arg (info : List JsValue) (i : Nat) : JsValue := info.getD i .undefined

/-- Line 18: the condition under which the usage error is thrown. -/
def badArguments (info : List JsValue) : Bool :=
  decide (info.length < 2) || !(arg info 0).isArray || !(arg info 1).isObject

/-- The function `Search` (lines 16-63) on the argument list `info`.  The last
branch of the `match` is never taken: past the guard `info[0]` is an array. -/
def Search (sort : StdSort) (info : List JsValue) : Except NapiError JsValue :=
  if badArguments info then .error .usage
  else
    match arg info 0 with
    | .array rows => do
      let q ← readQuery (arg info 1)
      let buff ← collect q rows
      pure (emit (sort.run buff) q.limit)
    | _ => .error .usage

/-! ## Specification-side notions -/

/-- The records the call reads from its first argument: the rows of the
entries that are objects, in input order, before any filtering. -/
def inputRecords : List JsValue → Except NapiError (List Row)
  | [] => pure []
  | v :: vs =>
    if v.isObject then do
      let row ← readRow v
      let rest ← inputRecords vs
      pure (row :: rest)
    else inputRecords vs

/-- The filter of the specification: a record passes when the topic filter is
empty or equal to its topic, and its importance is at least `importance_min`. -/
def passes (q : Query) (row : Row) : Bool :=
  decide (q.topicFilter = "" ∨ row.topic = q.topicFilter) &&
    decide (q.importanceMin ≤ row.importance)

/-- The value is a Number. -/
def JsValue.isNumber : JsValue → Bool
  | .number _ => true
  | _ => false

/-- The value is a String. -/
def JsValue.isString : JsValue → Bool
  | .string _ => true
  | _ => false

/-- Every property of the query that is present has the type the code reads
it with: `topic` a string, `importance_min` and `limit` numbers. -/
def wellTypedQuery (q : JsValue) : Bool :=
  (!q.has "topic" || (q.get "topic").isString) &&
    (!q.has "importance_min" || (q.get "importance_min").isNumber) &&
    (!q.has "limit" || (q.get "limit").isNumber)

/-- A well-formed record: `id`, `ts` and `importance` are numbers, `topic`
and `content` are strings. -/
def wellTypedRecord (v : JsValue) : Bool :=
  (v.get "id").isNumber && (v.get "ts").isNumber && (v.get "importance").isNumber &&
    (v.get "topic").isString && (v.get "content").isString

/-- The score of the specification, `importance * 100000 + timestamp`, as an
exact integer. -/
def exactScore (r : Row) : Int := r.importance * 100000 + r.ts

/-- Descending order of the computed score, the order `std::sort` leaves. -/
def scoreGe (a b : Row) : Prop := score b ≤ score a

instance : DecidableRel scoreGe := fun a b => inferInstanceAs (Decidable (score b ≤ score a))

instance : IsTotal Row scoreGe := ⟨fun a b => le_total (score b) (score a)⟩

instance : IsTrans Row scoreGe := ⟨fun _ _ _ hab hbc => le_trans hbc hab⟩

/-- A `std::sort` that keeps rows of equal score in input order. -/
def stableSort : StdSort where
  run := List.insertionSort scoreGe
  perm := List.perm_insertionSort scoreGe
  sorted := fun l => by
    have h := List.sorted_insertionSort scoreGe l
    refine List.Pairwise.imp ?_ h
    intro a b hab
    simp only [comp, decide_eq_false_iff_not, not_lt, gt_iff_lt]
    exact hab

/-- The rows `Search` returns, in order, for a query `q` and input records
`rows`: the first `count` of the sorted survivors of the filter. -/
def selected (sort : StdSort) (q : Query) (rows : List Row) : List Row :=
  (sort.run (rows.filter (passes q))).take
    (outCount (sort.run (rows.filter (passes q))) q.limit).toNat

/-- The rows that pass the filter and are not returned: the tail of the
sorted vector past `count`. -/
def leftOut (sort : StdSort) (q : Query) (rows : List Row) : List Row :=
  (sort.run (rows.filter (passes q))).drop
    (outCount (sort.run (rows.filter (passes q))) q.limit).toNat

/-- The ranges of the fields of a `Row` in memory. -/
def Row.inRange (r : Row) : Prop :=
  (-(2 ^ 63) ≤ r.id ∧ r.id < 2 ^ 63) ∧ (-(2 ^ 63) ≤ r.ts ∧ r.ts < 2 ^ 63) ∧
    (-(2 ^ 31) ≤ r.importance ∧ r.importance < 2 ^ 31)

/-! ## Example inputs -/

/-- The three records of the worked examples. -/
def exampleRows : List JsValue :=
  [ .object [("id", .number 1), ("ts", .number 10), ("importance", .number 5),
      ("topic", .string "a"), ("content", .string "x")],
    .object [("id", .number 2), ("ts", .number 20), ("importance", .number 5),
      ("topic", .string "a"), ("content", .string "y")],
    .object [("id", .number 3), ("ts", .number 5), ("importance", .number 9),
      ("topic", .string "b"), ("content", .string "z")] ]

/-- The rows read from `exampleRows`. -/
def exampleRecords : List Row :=
  [Row.mk 1 10 5 "a" "x", Row.mk 2 20 5 "a" "y", Row.mk 3 5 9 "b" "z"]

/-- The two rows on which the 64-bit score wraps around: the first has the
larger exact score and the smaller computed one. -/
def wrapRows : List JsValue :=
  [ .object [("id", .number 1), ("ts", .number 9223372036854774784), ("importance", .number 1),
      ("topic", .string "a"), ("content", .string "x")],
    .object [("id", .number 2), ("ts", .number 0), ("importance", .number 1),
      ("topic", .string "a"), ("content", .string "y")] ]

/-- The exact score of the row lies in the range of `long long`. -/
def Row.scoreFits (r : Row) : Prop := -(2 ^ 63) ≤ exactScore r ∧ exactScore r < 2 ^ 63

/-- The row of `wrapRows` whose score wraps around. -/
def wrapRow : Row := Row.mk 1 9223372036854774784 1 "a" "x"

/-- The other row of `wrapRows`. -/
def plainRow : Row := Row.mk 2 0 1 "a" "y"

/-- The record the loop reads from one entry, when it is an object whose five
fields can be read. -/
def rowOf (v : JsValue) : Option Row :=
  if v.isObject then
    match readRow v with
    | .ok r => some r
    | .error _ => none
  else none

/-! ## The arguments as the caller gives them -/

/-- The integer a query states under `key`: the Number stored there, or the
default of lines 26-27 when the key is absent; nothing when the property is
there and is not a Number. -/
def statedNumber (q : JsValue) (key : String) (dflt : Int) : Option Int :=
  if q.has key then
    match q.get key with
    | .number n => some n
    | _ => none
  else some dflt

/-- The `importance_min` of a query, before it is read into an `int`. -/
def statedImportanceMin (q : JsValue) : Option Int := statedNumber q "importance_min" 1

/-- The `limit` of a query, before it is read into an `int`. -/
def statedLimit (q : JsValue) : Option Int := statedNumber q "limit" 50

/-- The topic filter of a query: the String stored under `topic`, or the empty
string when the key is absent. -/
def statedTopic (q : JsValue) : Option String :=
  if q.has "topic" then
    match q.get "topic" with
    | .string s => some s
    | _ => none
  else some ""

/-- The integer is in the range of a 32-bit signed integer. -/
def fitsInt32 (n : Int) : Bool := decide (-(2 ^ 31) ≤ n ∧ n < 2 ^ 31)

/-- The integer is in the range of a 64-bit signed integer. -/
def fitsInt64 (n : Int) : Bool := decide (-(2 ^ 63) ≤ n ∧ n < 2 ^ 63)

/-- The filter of the specification on an entry as it is given: the topic
filter is empty or equal to the entry's topic, and the entry's importance is at
least `importance_min`. -/
def entryPasses (t : String) (m : Int) (v : JsValue) : Bool :=
  match v.get "topic", v.get "importance" with
  | .string s, .number p => decide (t = "" ∨ s = t) && decide (m ≤ p)
  | _, _ => false

/-- The importance of the entry is a Number in the 32-bit range of
`Row::importance`. -/
def importanceFits (v : JsValue) : Bool :=
  match v.get "importance" with
  | .number p => fitsInt32 p
  | _ => false

/-- The five fields of an entry, as an object. -/
def fiveFields (v : JsValue) : JsValue :=
  .object [("id", v.get "id"), ("ts", v.get "ts"), ("importance", v.get "importance"),
    ("topic", v.get "topic"), ("content", v.get "content")]

/-- A Record of the data model: `id` and `ts` are integers of the 64-bit range
that a Number holds exactly, `importance` is an integer of the 32-bit range,
`topic` and `content` are strings. -/
def properRecord (v : JsValue) : Bool :=
  match v.get "id", v.get "ts", v.get "importance", v.get "topic", v.get "content" with
  | .number i, .number t, .number p, .string _, .string _ =>
    fitsInt64 i && decide (toDouble i = i) && fitsInt64 t && decide (toDouble t = t) &&
      fitsInt32 p
  | _, _, _, _, _ => false

/-- Two entries whose sums `importance * 100000 + ts` differ by `2^64`: the
values computed on line 46 are equal. -/
def collisionRows : List JsValue :=
  [ .object [("id", .number 1), ("ts", .number 9223372036848375808),
      ("importance", .number 128), ("topic", .string "a"), ("content", .string "x")],
    .object [("id", .number 2), ("ts", .number (-9223372036848375808)),
      ("importance", .number 0), ("topic", .string "a"), ("content", .string "y")] ]

/-- The score `importance * 100000 + ts` of an object, entry of the input or
element of the output, from its two fields as they stand. -/
def entryScore (v : JsValue) : Int :=
  match v.get "importance", v.get "ts" with
  | .number p, .number t => p * 100000 + t
  | _, _ => 0


/-- The first of the example records, as an entry. -/
def exampleEntry : JsValue :=
  .object [("id", .number 1), ("ts", .number 10), ("importance", .number 5),
    ("topic", .string "a"), ("content", .string "x")]


/-! ## The loop and the call, characterised -/

theorem passes_iff (q : Query) (row : Row) :
    passes q row = true ↔
      (q.topicFilter = "" ∨ row.topic = q.topicFilter) ∧ q.importanceMin ≤ row.importance := by
  unfold passes
  simp only [Bool.and_eq_true, decide_eq_true_eq]

theorem collectStep_ok (q : Query) (buff : List Row) (v : JsValue) (row : Row)
    (hv : v.isObject = true) (hr : readRow v = .ok row) :
    collectStep q buff v = .ok (if passes q row = true then buff ++ [row] else buff) := by
  unfold collectStep
  simp only [hv, hr, Bool.not_true, Bool.false_eq_true, if_false]
  show (if q.topicFilter ≠ "" ∧ row.topic ≠ q.topicFilter then Except.ok buff
    else if row.importance < q.importanceMin then Except.ok buff
    else Except.ok (buff ++ [row])) = Except.ok (if passes q row = true then buff ++ [row] else buff)
  unfold passes
  by_cases h1 : q.topicFilter = "" <;> by_cases h2 : row.topic = q.topicFilter <;>
    by_cases h3 : row.importance < q.importanceMin <;>
    simp [h1, h2, h3, not_le.2, not_lt.1, le_of_not_lt]

theorem collectStep_skip (q : Query) (buff : List Row) (v : JsValue)
    (hv : v.isObject = false) : collectStep q buff v = .ok buff := by
  unfold collectStep
  simp only [hv, Bool.not_false, if_true]
  rfl

theorem collectStep_error (q : Query) (buff : List Row) (v : JsValue) (e : NapiError)
    (hv : v.isObject = true) (hr : readRow v = .error e) :
    collectStep q buff v = .error e := by
  unfold collectStep
  simp only [hv, hr, Bool.not_true, Bool.false_eq_true, if_false]
  rfl

theorem collectFrom_ok (q : Query) :
    ∀ (vs : List JsValue) (buff rows : List Row), inputRecords vs = .ok rows →
      collectFrom q buff vs = .ok (buff ++ rows.filter (passes q))
  | [], buff, rows, h => by
    have : rows = [] := by
      have h2 : (Except.ok [] : Except NapiError (List Row)) = .ok rows := h
      injection h2 with h3
      exact h3.symm
    subst this
    simp [collectFrom, pure, Except.pure]
  | v :: vs, buff, rows, h => by
    unfold inputRecords at h
    cases hv : v.isObject with
    | false =>
      simp only [hv, Bool.false_eq_true, if_false] at h
      unfold collectFrom
      rw [collectStep_skip q buff v hv]
      exact collectFrom_ok q vs buff rows h
    | true =>
      simp only [hv, if_true] at h
      cases hr : readRow v with
      | error e =>
        rw [hr] at h
        exact absurd h (by intro h2; cases h2)
      | ok row =>
        rw [hr] at h
        cases hrest : inputRecords vs with
        | error e =>
          rw [hrest] at h
          exact absurd h (by intro h2; cases h2)
        | ok rest =>
          rw [hrest] at h
          have h2 : (Except.ok (row :: rest) : Except NapiError (List Row)) = .ok rows := h
          injection h2 with h3
          subst h3
          unfold collectFrom
          rw [collectStep_ok q buff v row hv hr]
          show collectFrom q (if passes q row = true then buff ++ [row] else buff) vs = _
          rw [collectFrom_ok q vs _ rest hrest]
          by_cases hp : passes q row = true
          · simp [hp, List.filter_cons]
          · simp [hp, List.filter_cons]

theorem collectFrom_error (q : Query) :
    ∀ (vs : List JsValue) (buff : List Row) (e : NapiError), inputRecords vs = .error e →
      collectFrom q buff vs = .error e
  | [], _, e, h => by
    have h2 : (Except.ok [] : Except NapiError (List Row)) = .error e := h
    cases h2
  | v :: vs, buff, e, h => by
    unfold inputRecords at h
    cases hv : v.isObject with
    | false =>
      simp only [hv, Bool.false_eq_true, if_false] at h
      unfold collectFrom
      rw [collectStep_skip q buff v hv]
      exact collectFrom_error q vs buff e h
    | true =>
      simp only [hv, if_true] at h
      cases hr : readRow v with
      | error e2 =>
        rw [hr] at h
        have h2 : (Except.error e2 : Except NapiError (List Row)) = .error e := h
        injection h2 with h3
        subst h3
        unfold collectFrom
        rw [collectStep_error q buff v e2 hv hr]
        rfl
      | ok row =>
        rw [hr] at h
        unfold collectFrom
        rw [collectStep_ok q buff v row hv hr]
        cases hrest : inputRecords vs with
        | error e2 =>
          rw [hrest] at h
          have h2 : (Except.error e2 : Except NapiError (List Row)) = .error e := h
          injection h2 with h3
          subst h3
          exact collectFrom_error q vs _ e2 hrest
        | ok rest =>
          rw [hrest] at h
          exact absurd h (by intro h2; cases h2)

theorem Search_ok (sort : StdSort) (vs : List JsValue) (qv : JsValue) (more : List JsValue)
    (q : Query) (rows : List Row) (hobj : qv.isObject = true) (hq : readQuery qv = .ok q)
    (hrows : inputRecords vs = .ok rows) :
    Search sort (.array vs :: qv :: more) = .ok (.array ((selected sort q rows).map rowToJs)) := by
  have hc : collect q vs = .ok (rows.filter (passes q)) := by
    have := collectFrom_ok q vs [] rows hrows
    simpa [collect] using this
  unfold Search
  simp only [badArguments, arg, List.getD_cons_zero, List.getD_cons_succ, JsValue.isArray, hobj,
    List.length_cons]
  have hlen : ¬ (more.length + 1 + 1 < 2) := by omega
  simp only [hlen, decide_False, Bool.not_true, Bool.or_self, Bool.false_eq_true, if_false, hq]
  show (collect q vs >>= fun buff => pure (emit (sort.run buff) q.limit)) = _
  rw [hc]
  rfl

/-! ## Facts about the selection -/

theorem selected_sublist (sort : StdSort) (q : Query) (rows : List Row) :
    (selected sort q rows).Sublist (sort.run (rows.filter (passes q))) :=
  List.take_sublist _ _

theorem mem_selected_passes (sort : StdSort) (q : Query) (rows : List Row) (r : Row)
    (h : r ∈ selected sort q rows) : r ∈ rows ∧ passes q r = true := by
  have h1 : r ∈ sort.run (rows.filter (passes q)) := (selected_sublist sort q rows).subset h
  have h2 : r ∈ rows.filter (passes q) := (sort.perm _).subset h1
  exact List.mem_filter.1 h2

theorem sorted_scoreGe (sort : StdSort) (l : List Row) : (sort.run l).Pairwise scoreGe := by
  refine List.Pairwise.imp ?_ (sort.sorted l)
  intro a b hab
  simp only [comp, decide_eq_false_iff_not, not_lt, gt_iff_lt] at hab
  exact hab

theorem selected_pairwise (sort : StdSort) (q : Query) (rows : List Row) :
    (selected sort q rows).Pairwise scoreGe :=
  (sorted_scoreGe sort _).sublist (selected_sublist sort q rows)

/-- Strictly descending order of the computed score. -/
theorem run_pairwise_gt (sort : StdSort) (l : List Row) (h : (l.map score).Nodup) :
    (sort.run l).Pairwise (fun a b => score b < score a) := by
  have h1 : ((sort.run l).map score).Nodup := ((sort.perm l).map score).nodup_iff.2 h
  have h2 : (sort.run l).Pairwise (fun a b => score a ≠ score b) := by
    unfold List.Nodup at h1
    exact List.pairwise_map.1 h1
  refine ((sorted_scoreGe sort l).and h2).imp ?_
  intro a b hab
  exact lt_of_le_of_ne hab.1 (Ne.symm hab.2)

/-- When no two rows have the same computed score, every `std::sort` leaves
the same vector. -/
theorem run_unique (sort1 sort2 : StdSort) (l : List Row) (h : (l.map score).Nodup) :
    sort1.run l = sort2.run l := by
  haveI : IsAntisymm Row (fun a b => score b < score a) :=
    ⟨fun _ _ hab hba => absurd hab (lt_asymm hba)⟩
  exact List.eq_of_perm_of_sorted ((sort1.perm l).trans (sort2.perm l).symm)
    (run_pairwise_gt sort1 l h) (run_pairwise_gt sort2 l h)

/-- With pairwise distinct computed scores among the survivors of the filter,
the result of the call does not depend on the `std::sort` in use. -/
theorem Search_any_sort (sort1 sort2 : StdSort) (vs : List JsValue) (qv : JsValue)
    (more : List JsValue) (q : Query) (rows : List Row) (hobj : qv.isObject = true)
    (hq : readQuery qv = .ok q) (hrows : inputRecords vs = .ok rows)
    (h : ((rows.filter (passes q)).map score).Nodup) :
    Search sort1 (.array vs :: qv :: more) = Search sort2 (.array vs :: qv :: more) := by
  rw [Search_ok sort1 vs qv more q rows hobj hq hrows,
    Search_ok sort2 vs qv more q rows hobj hq hrows]
  unfold selected
  rw [run_unique sort1 sort2 _ h]

/-- On `wrapRows` every `std::sort` gives the result that `stableSort` gives. -/
theorem Search_wrapRows_any_sort (sort : StdSort) (limit : Int) :
    Search sort (.array wrapRows :: .object [("limit", .number limit)] :: []) =
      Search stableSort (.array wrapRows :: .object [("limit", .number limit)] :: []) :=
  Search_any_sort sort stableSort wrapRows _ []
    (Query.mk "" 1 (wrap32 limit))
    [Row.mk 1 9223372036854774784 1 "a" "x", Row.mk 2 0 1 "a" "y"] (by rfl) (by rfl) (by rfl)
    (by
      show (([Row.mk 1 9223372036854774784 1 "a" "x", Row.mk 2 0 1 "a" "y"].filter
        (passes (Query.mk "" 1 0))).map score).Nodup
      decide)

/-! ## Ranges of the machine integers -/

theorem wrap64_of_range (z : Int) (h1 : -(2 ^ 63) ≤ z) (h2 : z < 2 ^ 63) : wrap64 z = z := by
  unfold wrap64
  norm_num at h1 h2 ⊢
  omega

theorem wrap32_of_range (z : Int) (h1 : -(2 ^ 31) ≤ z) (h2 : z < 2 ^ 31) : wrap32 z = z := by
  unfold wrap32
  norm_num at h1 h2 ⊢
  omega

theorem wrap32_range (z : Int) : -(2 ^ 31) ≤ wrap32 z ∧ wrap32 z < 2 ^ 31 := by
  unfold wrap32
  norm_num
  omega

theorem clamp64_range (z : Int) : -(2 ^ 63) ≤ clamp64 z ∧ clamp64 z < 2 ^ 63 := by
  unfold clamp64
  norm_num

theorem readRow_inRange (v : JsValue) (r : Row) (h : readRow v = .ok r) : r.inRange := by
  unfold readRow at h
  cases h1 : (v.get "id") <;> simp [h1, JsValue.int64Value, bind, Except.bind] at h
  rename_i n1
  cases h2 : (v.get "ts") <;> simp [h2, JsValue.int64Value, bind, Except.bind] at h
  rename_i n2
  cases h3 : (v.get "importance") <;> simp [h3, JsValue.int32Value, bind, Except.bind] at h
  rename_i n3
  cases h4 : (v.get "topic") <;> simp [h4, JsValue.utf8Value, bind, Except.bind] at h
  rename_i s4
  cases h5 : (v.get "content") <;> simp [h5, JsValue.utf8Value, bind, Except.bind, pure, Except.pure] at h
  rename_i s5
  subst h
  exact ⟨clamp64_range n1, clamp64_range n2, wrap32_range n3⟩

theorem inputRecords_inRange :
    ∀ (vs : List JsValue) (rows : List Row), inputRecords vs = .ok rows → ∀ r ∈ rows, r.inRange
  | [], rows, h => by
    have h2 : (Except.ok [] : Except NapiError (List Row)) = .ok rows := h
    injection h2 with h3
    subst h3
    intro r hr
    cases hr
  | v :: vs, rows, h => by
    unfold inputRecords at h
    cases hv : v.isObject with
    | false =>
      simp only [hv, Bool.false_eq_true, if_false] at h
      exact inputRecords_inRange vs rows h
    | true =>
      simp only [hv, if_true] at h
      cases hr : readRow v with
      | error e =>
        rw [hr] at h
        exact absurd h (by intro h2; cases h2)
      | ok row =>
        rw [hr] at h
        cases hrest : inputRecords vs with
        | error e =>
          rw [hrest] at h
          exact absurd h (by intro h2; cases h2)
        | ok rest =>
          rw [hrest] at h
          have h2 : (Except.ok (row :: rest) : Except NapiError (List Row)) = .ok rows := h
          injection h2 with h3
          subst h3
          intro r hmem
          rcases List.mem_cons.1 hmem with h4 | h4
          · subst h4
            exact readRow_inRange v r hr
          · exact inputRecords_inRange vs rest hrest r h4

theorem score_eq_exact (r : Row) (hr : r.inRange) (h1 : -(2 ^ 63) ≤ exactScore r)
    (h2 : exactScore r < 2 ^ 63) : score r = exactScore r := by
  obtain ⟨_, _, h3, h4⟩ := hr
  unfold score
  unfold exactScore at h1 h2 ⊢
  have h5 : wrap64 (r.importance * 100000) = r.importance * 100000 := by
    apply wrap64_of_range <;> norm_num at h3 h4 ⊢ <;> omega
  rw [h5]
  exact wrap64_of_range _ h1 h2

/-! ## Order of the output -/

theorem selected_score_exact (sort : StdSort) (vs : List JsValue) (q : Query) (rows : List Row)
    (hrows : inputRecords vs = .ok rows)
    (hfit : ∀ r ∈ rows, passes q r = true → -(2 ^ 63) ≤ exactScore r ∧ exactScore r < 2 ^ 63)
    (r : Row) (hr : r ∈ sort.run (rows.filter (passes q))) : score r = exactScore r := by
  have h2 : r ∈ rows.filter (passes q) := (sort.perm _).subset hr
  have h3 := List.mem_filter.1 h2
  have h4 := hfit r h3.1 h3.2
  exact score_eq_exact r (inputRecords_inRange vs rows hrows r h3.1) h4.1 h4.2

/-- C2: the code on the failing input.  With a timestamp of `2^63 - 1024`
the sum `1 * 100000 + ts` of line 46 leaves the 64-bit range, the computed
score is negative, and the row is returned after one whose score
`importance * 100000 + ts` is smaller.  The two computed scores differ, so
every `std::sort` gives this result (`Search_wrapRows_any_sort`). -/
theorem Search_order_counterexample :
    Search stableSort (.array wrapRows :: .object [("limit", .number 2)] :: []) =
        .ok (.array ([Row.mk 2 0 1 "a" "y", Row.mk 1 9223372036854774784 1 "a" "x"].map rowToJs)) ∧
      ¬ ((Row.mk 2 0 1 "a" "y").importance * 100000 + (Row.mk 2 0 1 "a" "y").ts ≥
        (Row.mk 1 9223372036854774784 1 "a" "x").importance * 100000 +
          (Row.mk 1 9223372036854774784 1 "a" "x").ts) := by
  constructor
  · rfl
  · decide

/-- Where the sum of line 46 does not overflow, the output is in descending
order of `importance * 100000 + ts`; in every case it is in descending order of
the value the comparator computes. -/
theorem Search_score_descending (sort : StdSort) (vs : List JsValue) (qv : JsValue)
    (more : List JsValue) (q : Query) (rows : List Row) (hobj : qv.isObject = true)
    (hq : readQuery qv = .ok q) (hrows : inputRecords vs = .ok rows) :
    ∃ res : List Row, Search sort (.array vs :: qv :: more) = .ok (.array (res.map rowToJs)) ∧
      (∀ i j : Fin res.length, i < j → score (res.get i) ≥ score (res.get j)) ∧
      ((∀ r ∈ rows, passes q r = true → -(2 ^ 63) ≤ exactScore r ∧ exactScore r < 2 ^ 63) →
        ∀ i j : Fin res.length, i < j →
          (res.get i).importance * 100000 + (res.get i).ts ≥
            (res.get j).importance * 100000 + (res.get j).ts) := by
  refine ⟨selected sort q rows, Search_ok sort vs qv more q rows hobj hq hrows, ?_, ?_⟩
  · intro i j hij
    exact List.pairwise_iff_get.1 (selected_pairwise sort q rows) i j hij
  · intro hfit i j hij
    have h := List.pairwise_iff_get.1 (selected_pairwise sort q rows) i j hij
    have hi := selected_score_exact sort vs q rows hrows hfit _
      ((selected_sublist sort q rows).subset (List.get_mem _ i.1 i.2))
    have hj := selected_score_exact sort vs q rows hrows hfit _
      ((selected_sublist sort q rows).subset (List.get_mem _ j.1 j.2))
    unfold scoreGe at h
    rw [hi, hj] at h
    exact h

theorem Search_score_descending_witness :
    ∃ res : List Row,
      Search stableSort (.array exampleRows :: .object [("limit", .number 2)] :: []) =
        .ok (.array (res.map rowToJs)) ∧
      (∀ i j : Fin res.length, i < j → score (res.get i) ≥ score (res.get j)) ∧
      (∀ i j : Fin res.length, i < j →
          (res.get i).importance * 100000 + (res.get i).ts ≥
            (res.get j).importance * 100000 + (res.get j).ts) := by
  obtain ⟨res, h1, h2, h3⟩ :=
    Search_score_descending stableSort exampleRows (.object [("limit", .number 2)]) []
      (Query.mk "" 1 2) exampleRecords (by rfl) (by rfl) (by rfl)
  exact ⟨res, h1, h2, h3 (by decide)⟩

/-! ## Top-K selection -/

theorem selected_leftOut_perm (sort : StdSort) (q : Query) (rows : List Row) :
    (selected sort q rows ++ leftOut sort q rows).Perm (rows.filter (passes q)) := by
  unfold selected leftOut
  rw [List.take_append_drop]
  exact sort.perm _

theorem selected_leftOut_scoreGe (sort : StdSort) (q : Query) (rows : List Row) (a b : Row)
    (ha : a ∈ selected sort q rows) (hb : b ∈ leftOut sort q rows) : score b ≤ score a :=
  List.Sorted.rel_of_mem_take_of_mem_drop (sorted_scoreGe sort _) ha hb

/-- C3: the code on the failing input.  On `wrapRows` with `limit = 1` the
row that is left out passes the filter and has the larger score
`importance * 100000 + ts`: its sum on line 46 overflows.  Every `std::sort`
gives this result (`Search_wrapRows_any_sort`). -/
theorem Search_topK_counterexample :
    Search stableSort (.array wrapRows :: .object [("limit", .number 1)] :: []) =
        .ok (.array ([Row.mk 2 0 1 "a" "y"].map rowToJs)) ∧
      inputRecords wrapRows =
        .ok [Row.mk 1 9223372036854774784 1 "a" "x", Row.mk 2 0 1 "a" "y"] ∧
      passes (Query.mk "" 1 1) (Row.mk 1 9223372036854774784 1 "a" "x") = true ∧
      Row.mk 1 9223372036854774784 1 "a" "x" ∉ [Row.mk 2 0 1 "a" "y"] ∧
      ¬ (exactScore (Row.mk 1 9223372036854774784 1 "a" "x") ≤
        exactScore (Row.mk 2 0 1 "a" "y")) := by
  refine ⟨by rfl, by rfl, by rfl, by decide, by decide⟩

/-- Where the sum of line 46 does not overflow, the rows returned are the best
by `importance * 100000 + ts`: the survivors of the filter are, counting
multiplicity, the returned rows `res` together with rows `rest`, none of which
has a greater score than a returned row.  In every case that holds of the value
the comparator computes. -/
theorem Search_topK (sort : StdSort) (vs : List JsValue) (qv : JsValue)
    (more : List JsValue) (q : Query) (rows : List Row) (hobj : qv.isObject = true)
    (hq : readQuery qv = .ok q) (hrows : inputRecords vs = .ok rows) :
    ∃ res rest : List Row,
      Search sort (.array vs :: qv :: more) = .ok (.array (res.map rowToJs)) ∧
      (res ++ rest).Perm (rows.filter (passes q)) ∧
      (∀ a ∈ res, ∀ b ∈ rest, score b ≤ score a) ∧
      ((∀ r ∈ rows, passes q r = true → -(2 ^ 63) ≤ exactScore r ∧ exactScore r < 2 ^ 63) →
        ∀ a ∈ res, ∀ b ∈ rest, exactScore b ≤ exactScore a) := by
  refine ⟨selected sort q rows, leftOut sort q rows,
    Search_ok sort vs qv more q rows hobj hq hrows, selected_leftOut_perm sort q rows,
    fun a ha b hb => selected_leftOut_scoreGe sort q rows a b ha hb, ?_⟩
  intro hfit a ha b hb
  have h := selected_leftOut_scoreGe sort q rows a b ha hb
  have h1 := selected_score_exact sort vs q rows hrows hfit a
    ((selected_sublist sort q rows).subset ha)
  have h2 := selected_score_exact sort vs q rows hrows hfit b
    ((List.drop_sublist _ _).subset hb)
  rw [h1, h2] at h
  exact h

theorem Search_topK_witness :
    ∃ res rest : List Row,
      Search stableSort (.array exampleRows :: .object [("limit", .number 1)] :: []) =
        .ok (.array (res.map rowToJs)) ∧
      (res ++ rest).Perm (exampleRecords.filter (passes (Query.mk "" 1 1))) ∧
      (∀ a ∈ res, ∀ b ∈ rest, score b ≤ score a) ∧
      (∀ a ∈ res, ∀ b ∈ rest, exactScore b ≤ exactScore a) := by
  obtain ⟨res, rest, h1, h2, h3, h4⟩ :=
    Search_topK stableSort exampleRows (.object [("limit", .number 1)]) []
      (Query.mk "" 1 1) exampleRecords (by rfl) (by rfl) (by rfl)
  exact ⟨res, rest, h1, h2, h3, h4 (by decide)⟩

/-! ## Length of the output -/

theorem inputRecords_length :
    ∀ (vs : List JsValue) (rows : List Row), inputRecords vs = .ok rows → rows.length ≤ vs.length
  | [], rows, h => by
    have h2 : (Except.ok [] : Except NapiError (List Row)) = .ok rows := h
    injection h2 with h3
    subst h3
    exact Nat.le_refl _
  | v :: vs, rows, h => by
    unfold inputRecords at h
    cases hv : v.isObject with
    | false =>
      simp only [hv, Bool.false_eq_true, if_false] at h
      exact Nat.le_succ_of_le (inputRecords_length vs rows h)
    | true =>
      simp only [hv, if_true] at h
      cases hr : readRow v with
      | error e =>
        rw [hr] at h
        exact absurd h (by intro h2; cases h2)
      | ok row =>
        rw [hr] at h
        cases hrest : inputRecords vs with
        | error e =>
          rw [hrest] at h
          exact absurd h (by intro h2; cases h2)
        | ok rest =>
          rw [hrest] at h
          have h2 : (Except.ok (row :: rest) : Except NapiError (List Row)) = .ok rows := h
          injection h2 with h3
          subst h3
          exact Nat.succ_le_succ (inputRecords_length vs rest hrest)

theorem run_length (sort : StdSort) (l : List Row) : (sort.run l).length = l.length :=
  (sort.perm l).length_eq

theorem selected_length (sort : StdSort) (q : Query) (rows : List Row) :
    (selected sort q rows).length =
      min (outCount (sort.run (rows.filter (passes q))) q.limit).toNat
        (rows.filter (passes q)).length := by
  unfold selected
  rw [List.length_take, run_length]

theorem outCount_le_limit (buff : List Row) (limit : Int) : outCount buff limit ≤ limit :=
  min_le_right _ _

/-! ## No fabrication -/

theorem selected_subperm (sort : StdSort) (q : Query) (rows : List Row) :
    (selected sort q rows).Subperm rows :=
  ((selected_sublist sort q rows).subperm.trans (sort.perm _).subperm).trans
    (List.filter_sublist rows).subperm

theorem int32Value_ok (v : JsValue) (h : v.isNumber = true) : ∃ n, v.int32Value = .ok n := by
  cases v <;> simp [JsValue.isNumber] at h
  exact ⟨_, rfl⟩

theorem int64Value_ok (v : JsValue) (h : v.isNumber = true) : ∃ n, v.int64Value = .ok n := by
  cases v <;> simp [JsValue.isNumber] at h
  exact ⟨_, rfl⟩

theorem utf8Value_ok (v : JsValue) (h : v.isString = true) : ∃ s, v.utf8Value = .ok s := by
  cases v <;> simp [JsValue.isString] at h
  exact ⟨_, rfl⟩

theorem int32Value_not_usage (v : JsValue) : v.int32Value ≠ .error .usage := by
  cases v <;> simp [JsValue.int32Value]

theorem int64Value_not_usage (v : JsValue) : v.int64Value ≠ .error .usage := by
  cases v <;> simp [JsValue.int64Value]

theorem utf8Value_not_usage (v : JsValue) : v.utf8Value ≠ .error .usage := by
  cases v <;> simp [JsValue.utf8Value]

theorem bind_error_cases {α β : Type} (x : Except NapiError α) (f : α → Except NapiError β)
    (e : NapiError) (h : (x >>= f) = .error e) :
    x = .error e ∨ ∃ a, x = .ok a ∧ f a = .error e := by
  cases x with
  | error e2 =>
    left
    have h2 : (Except.error e2 : Except NapiError β) = .error e := h
    injection h2 with h3
    rw [h3]
  | ok a => exact Or.inr ⟨a, rfl, h⟩

theorem readRow_ok (v : JsValue) (h : wellTypedRecord v = true) : ∃ r, readRow v = .ok r := by
  unfold wellTypedRecord at h
  simp only [Bool.and_eq_true] at h
  obtain ⟨⟨⟨⟨h1, h2⟩, h3⟩, h4⟩, h5⟩ := h
  obtain ⟨n1, e1⟩ := int64Value_ok _ h1
  obtain ⟨n2, e2⟩ := int64Value_ok _ h2
  obtain ⟨n3, e3⟩ := int32Value_ok _ h3
  obtain ⟨s4, e4⟩ := utf8Value_ok _ h4
  obtain ⟨s5, e5⟩ := utf8Value_ok _ h5
  refine ⟨Row.mk n1 n2 n3 s4 s5, ?_⟩
  unfold readRow
  rw [e1, e2, e3, e4, e5]
  rfl

theorem readRow_not_usage (v : JsValue) : readRow v ≠ .error .usage := by
  intro h
  unfold readRow at h
  rcases bind_error_cases _ _ _ h with h1 | ⟨_, _, h⟩
  · exact int64Value_not_usage _ h1
  rcases bind_error_cases _ _ _ h with h1 | ⟨_, _, h⟩
  · exact int64Value_not_usage _ h1
  rcases bind_error_cases _ _ _ h with h1 | ⟨_, _, h⟩
  · exact int32Value_not_usage _ h1
  rcases bind_error_cases _ _ _ h with h1 | ⟨_, _, h⟩
  · exact utf8Value_not_usage _ h1
  rcases bind_error_cases _ _ _ h with h1 | ⟨_, _, h⟩
  · exact utf8Value_not_usage _ h1
  · cases h

theorem readQuery_ok (qv : JsValue) (h : wellTypedQuery qv = true) :
    ∃ q, readQuery qv = .ok q := by
  unfold wellTypedQuery at h
  simp only [Bool.and_eq_true, Bool.or_eq_true, Bool.not_eq_true'] at h
  obtain ⟨⟨h1, h2⟩, h3⟩ := h
  have a1 : ∃ s, (if qv.has "topic" = true then (qv.get "topic").utf8Value else pure "") =
      Except.ok s := by
    rcases h1 with h1 | h1
    · exact ⟨"", by simp [h1, pure, Except.pure]⟩
    · obtain ⟨s, e⟩ := utf8Value_ok _ h1
      by_cases hh : qv.has "topic" = true
      · exact ⟨s, by simp [hh, e]⟩
      · exact ⟨"", by simp [hh, pure, Except.pure]⟩
  have a2 : ∃ n, (if qv.has "importance_min" = true then (qv.get "importance_min").int32Value
      else pure 1) = Except.ok n := by
    rcases h2 with h2 | h2
    · exact ⟨1, by simp [h2, pure, Except.pure]⟩
    · obtain ⟨n, e⟩ := int32Value_ok _ h2
      by_cases hh : qv.has "importance_min" = true
      · exact ⟨n, by simp [hh, e]⟩
      · exact ⟨1, by simp [hh, pure, Except.pure]⟩
  have a3 : ∃ n, (if qv.has "limit" = true then (qv.get "limit").int32Value
      else pure 50) = Except.ok n := by
    rcases h3 with h3 | h3
    · exact ⟨50, by simp [h3, pure, Except.pure]⟩
    · obtain ⟨n, e⟩ := int32Value_ok _ h3
      by_cases hh : qv.has "limit" = true
      · exact ⟨n, by simp [hh, e]⟩
      · exact ⟨50, by simp [hh, pure, Except.pure]⟩
  obtain ⟨s, e1⟩ := a1
  obtain ⟨n2, e2⟩ := a2
  obtain ⟨n3, e3⟩ := a3
  refine ⟨Query.mk s n2 n3, ?_⟩
  unfold readQuery
  rw [e1, e2, e3]
  rfl

theorem readQuery_not_usage (qv : JsValue) : readQuery qv ≠ .error .usage := by
  intro h
  unfold readQuery at h
  rcases bind_error_cases _ _ _ h with h1 | ⟨_, _, h⟩
  · by_cases hh : qv.has "topic" = true
    · simp only [hh, if_true] at h1
      exact utf8Value_not_usage _ h1
    · simp only [hh, if_false] at h1
      cases h1
  rcases bind_error_cases _ _ _ h with h1 | ⟨_, _, h⟩
  · by_cases hh : qv.has "importance_min" = true
    · simp only [hh, if_true] at h1
      exact int32Value_not_usage _ h1
    · simp only [hh, if_false] at h1
      cases h1
  rcases bind_error_cases _ _ _ h with h1 | ⟨_, _, h⟩
  · by_cases hh : qv.has "limit" = true
    · simp only [hh, if_true] at h1
      exact int32Value_not_usage _ h1
    · simp only [hh, if_false] at h1
      cases h1
  · cases h

theorem inputRecords_ok :
    ∀ vs : List JsValue, (∀ v ∈ vs, v.isObject = true → wellTypedRecord v = true) →
      ∃ rows, inputRecords vs = .ok rows
  | [], _ => ⟨[], rfl⟩
  | v :: vs, h => by
    obtain ⟨rest, hrest⟩ := inputRecords_ok vs (fun w hw => h w (List.mem_cons_of_mem _ hw))
    unfold inputRecords
    cases hv : v.isObject with
    | false =>
      simp only [Bool.false_eq_true, if_false]
      exact ⟨rest, hrest⟩
    | true =>
      obtain ⟨r, hr⟩ := readRow_ok v (h v (List.mem_cons_self _ _) hv)
      simp only [if_true]
      rw [hr, hrest]
      exact ⟨r :: rest, rfl⟩

theorem inputRecords_not_usage :
    ∀ vs : List JsValue, inputRecords vs ≠ .error .usage
  | [] => by
    intro h
    cases h
  | v :: vs => by
    intro h
    unfold inputRecords at h
    cases hv : v.isObject with
    | false =>
      simp only [hv, Bool.false_eq_true, if_false] at h
      exact inputRecords_not_usage vs h
    | true =>
      simp only [hv, if_true] at h
      rcases bind_error_cases _ _ _ h with h1 | ⟨_, _, h⟩
      · exact readRow_not_usage _ h1
      rcases bind_error_cases _ _ _ h with h1 | ⟨_, _, h⟩
      · exact inputRecords_not_usage vs h1
      · cases h

theorem collect_not_usage (q : Query) (vs : List JsValue) : collect q vs ≠ .error .usage := by
  intro h
  cases hr : inputRecords vs with
  | error e =>
    have h2 := collectFrom_error q vs [] e hr
    unfold collect at h
    rw [h2] at h
    injection h with h3
    subst h3
    exact inputRecords_not_usage vs hr
  | ok rows =>
    have h2 := collectFrom_ok q vs [] rows hr
    unfold collect at h
    rw [h2] at h
    cases h

theorem badArguments_iff (info : List JsValue) :
    badArguments info = true ↔
      (info.length < 2 ∨ (arg info 0).isArray = false ∨ (arg info 1).isObject = false) := by
  unfold badArguments
  simp only [Bool.or_eq_true, decide_eq_true_eq, Bool.not_eq_true', or_assoc]

theorem Search_good (sort : StdSort) (info : List JsValue) (hgood : badArguments info = false) :
    ∃ vs, arg info 0 = .array vs ∧
      Search sort info =
        (readQuery (arg info 1) >>= fun q =>
          collect q vs >>= fun buff => pure (emit (sort.run buff) q.limit)) := by
  have h0 : (arg info 0).isArray = true := by
    unfold badArguments at hgood
    simp only [Bool.or_eq_false_iff, Bool.not_eq_false'] at hgood
    exact hgood.1.2
  cases ha : arg info 0 with
  | array vs =>
    refine ⟨vs, rfl, ?_⟩
    unfold Search
    simp only [hgood, Bool.false_eq_true, if_false, ha]
  | undefined => rw [ha] at h0; cases h0
  | null => rw [ha] at h0; cases h0
  | boolean b => rw [ha] at h0; cases h0
  | number n => rw [ha] at h0; cases h0
  | string s => rw [ha] at h0; cases h0
  | object props => rw [ha] at h0; cases h0

theorem Search_usage_iff (sort : StdSort) (info : List JsValue) :
    Search sort info = .error .usage ↔ badArguments info = true := by
  constructor
  · intro h
    by_contra hb
    have hgood : badArguments info = false := by simpa using hb
    obtain ⟨vs, _, hs⟩ := Search_good sort info hgood
    rw [hs] at h
    rcases bind_error_cases _ _ _ h with h1 | ⟨q, _, h⟩
    · exact readQuery_not_usage _ h1
    rcases bind_error_cases _ _ _ h with h1 | ⟨_, _, h⟩
    · exact collect_not_usage q vs h1
    · cases h
  · intro h
    unfold Search
    simp only [h, if_true]

theorem Search_wellTyped (sort : StdSort) (info : List JsValue)
    (hgood : badArguments info = false) (hq : wellTypedQuery (arg info 1) = true)
    (hrows : ∀ vs, arg info 0 = .array vs →
      ∀ v ∈ vs, v.isObject = true → wellTypedRecord v = true) :
    ∃ out, Search sort info = .ok (.array out) := by
  obtain ⟨vs, ha, hs⟩ := Search_good sort info hgood
  obtain ⟨q, hq2⟩ := readQuery_ok _ hq
  obtain ⟨rows, hr⟩ := inputRecords_ok vs (hrows vs ha)
  have hc : collect q vs = .ok (rows.filter (passes q)) := by
    have := collectFrom_ok q vs [] rows hr
    simpa [collect] using this
  rw [hs, hq2]
  show ∃ out, (collect q vs >>= fun buff => pure (emit (sort.run buff) q.limit)) = _
  rw [hc]
  exact ⟨_, rfl⟩

/-- C9, as stated, fails: with two arguments, an array and then an object,
the call still ends in an exception when a property of the query has the wrong
type. -/
theorem Search_argument_errors_counterexample :
    Search stableSort (.array [] :: .object [("limit", .string "x")] :: []) =
        .error .numberExpected ∧
      ¬ ((JsValue.array [] :: JsValue.object [("limit", .string "x")] :: []).length < 2) ∧
      (arg (.array [] :: .object [("limit", .string "x")] :: []) 0).isArray = true ∧
      (arg (.array [] :: .object [("limit", .string "x")] :: []) 1).isObject = true := by
  refine ⟨by rfl, by decide, by rfl, by rfl⟩

/-- C9, amended. The call ends in the usage error exactly when fewer than two
arguments are given, or the first is not an array, or the second is not an
object.  For every other argument list in which the properties of the query
that are present and the five fields of every entry that is an object have
the types they are read with, the call succeeds and returns an array. -/
theorem Search_argument_errors (sort : StdSort) (info : List JsValue) :
    (Search sort info = .error .usage ↔
      (info.length < 2 ∨ (arg info 0).isArray = false ∨ (arg info 1).isObject = false)) ∧
    (¬ (info.length < 2 ∨ (arg info 0).isArray = false ∨ (arg info 1).isObject = false) →
      wellTypedQuery (arg info 1) = true →
      (∀ vs, arg info 0 = .array vs → ∀ v ∈ vs, v.isObject = true → wellTypedRecord v = true) →
      ∃ out, Search sort info = .ok (.array out)) := by
  refine ⟨(Search_usage_iff sort info).trans (badArguments_iff info), ?_⟩
  intro hnot hq hrows
  have hgood : badArguments info = false := by
    cases hb : badArguments info with
    | false => rfl
    | true => exact absurd ((badArguments_iff info).1 hb) hnot
  exact Search_wellTyped sort info hgood hq hrows

theorem Search_argument_errors_witness :
    Search stableSort [.number 1] = .error .usage ∧
      ∃ out, Search stableSort (.array exampleRows :: .object [("limit", .number 2)] :: []) =
        .ok (.array out) := by
  refine ⟨((Search_argument_errors stableSort [.number 1]).1).2 (Or.inl (by decide)), ?_⟩
  refine (Search_argument_errors stableSort
    (.array exampleRows :: .object [("limit", .number 2)] :: [])).2 ?_ (by rfl) ?_
  · decide
  · intro vs hvs v hv _
    have h2 : exampleRows = vs := by
      have h3 : JsValue.array exampleRows = JsValue.array vs := hvs
      injection h3
    subst h2
    simp only [exampleRows, List.mem_cons, List.mem_singleton, List.not_mem_nil, or_false] at hv
    rcases hv with h | h | h <;> subst h <;> rfl

/-! ## Malformed entries -/

theorem collectFrom_filter_isObject (q : Query) :
    ∀ (vs : List JsValue) (buff : List Row),
      collectFrom q buff (vs.filter JsValue.isObject) = collectFrom q buff vs
  | [], _ => rfl
  | v :: vs, buff => by
    cases hv : v.isObject with
    | false =>
      rw [List.filter_cons_of_neg (by simp [hv])]
      conv_rhs => unfold collectFrom
      rw [collectStep_skip q buff v hv]
      exact collectFrom_filter_isObject q vs buff
    | true =>
      rw [List.filter_cons_of_pos hv]
      unfold collectFrom
      cases collectStep q buff v with
      | error e => rfl
      | ok b => exact collectFrom_filter_isObject q vs b

/-- Line 31: entries that are not objects are skipped. The call on an array
is the call on the array without them. -/
theorem Search_skips_non_objects (sort : StdSort) (vs : List JsValue) (qv : JsValue)
    (more : List JsValue) :
    Search sort (.array vs :: qv :: more) =
      Search sort (.array (vs.filter JsValue.isObject) :: qv :: more) := by
  unfold Search
  simp only [badArguments, arg, List.getD_cons_zero, List.getD_cons_succ, List.length_cons,
    JsValue.isArray, collect, collectFrom_filter_isObject]

/-- C10: the code on the failing input. An entry that is an object without
`importance` is not skipped: the call ends in the exception of `Int32Value`,
although the same call without that entry returns the other record. -/
theorem Search_malformed_record :
    Search stableSort
        (.array [ .object [("id", .number 1), ("ts", .number 10), ("importance", .number 5),
              ("topic", .string "a"), ("content", .string "x")],
            .object [("id", .number 2), ("ts", .number 20), ("topic", .string "a"),
              ("content", .string "y")] ] :: .object [] :: []) =
        .error .numberExpected ∧
      Search stableSort
        (.array [ .object [("id", .number 1), ("ts", .number 10), ("importance", .number 5),
              ("topic", .string "a"), ("content", .string "x")] ] :: .object [] :: []) =
        .ok (.array [rowToJs (Row.mk 1 10 5 "a" "x")]) := by
  refine ⟨by rfl, by rfl⟩

/-! ## Defaults of the query -/

theorem Search_congr_query (sort : StdSort) (a0 qv1 qv2 : JsValue) (more : List JsValue)
    (hobj : qv1.isObject = qv2.isObject) (hq : readQuery qv1 = readQuery qv2) :
    Search sort (a0 :: qv1 :: more) = Search sort (a0 :: qv2 :: more) := by
  unfold Search
  simp only [badArguments, arg, List.getD_cons_zero, List.getD_cons_succ, List.length_cons,
    hobj, hq]

theorem lookup_cons_ne (k k0 : String) (v : JsValue) (props : List (String × JsValue))
    (h : k ≠ k0) : List.lookup k ((k0, v) :: props) = List.lookup k props := by
  have h2 : (k == k0) = false := by simpa using h
  simp only [List.lookup, h2]

theorem lookup_cons_self (k : String) (v : JsValue) (props : List (String × JsValue)) :
    List.lookup k ((k, v) :: props) = some v := by
  simp only [List.lookup, beq_self_eq_true]

theorem readQuery_default_importanceMin (props : List (String × JsValue))
    (h : props.lookup "importance_min" = none) :
    readQuery (.object (("importance_min", .number 1) :: props)) = readQuery (.object props) := by
  unfold readQuery
  simp only [JsValue.has, JsValue.get, lookup_cons_self, h,
    lookup_cons_ne "topic" "importance_min" _ _ (by decide),
    lookup_cons_ne "limit" "importance_min" _ _ (by decide)]
  rfl

theorem readQuery_default_limit (props : List (String × JsValue))
    (h : props.lookup "limit" = none) :
    readQuery (.object (("limit", .number 50) :: props)) = readQuery (.object props) := by
  unfold readQuery
  simp only [JsValue.has, JsValue.get, lookup_cons_self, h,
    lookup_cons_ne "topic" "limit" _ _ (by decide),
    lookup_cons_ne "importance_min" "limit" _ _ (by decide)]
  rfl

theorem readQuery_default_topic (props : List (String × JsValue))
    (h : props.lookup "topic" = none) :
    readQuery (.object (("topic", .string "") :: props)) = readQuery (.object props) := by
  unfold readQuery
  simp only [JsValue.has, JsValue.get, lookup_cons_self, h,
    lookup_cons_ne "importance_min" "topic" _ _ (by decide),
    lookup_cons_ne "limit" "topic" _ _ (by decide)]
  rfl

theorem ok_bind {α β : Type} (a : α) (f : α → Except NapiError β) :
    (Except.ok a >>= f) = f a := rfl

theorem error_bind {α β : Type} (e : NapiError) (f : α → Except NapiError β) :
    (Except.error e >>= f) = .error e := rfl

theorem readQuery_absent_values (props : List (String × JsValue)) (q : Query)
    (hq : readQuery (.object props) = .ok q) :
    (props.lookup "topic" = none → q.topicFilter = "") ∧
      (props.lookup "importance_min" = none → q.importanceMin = 1) ∧
      (props.lookup "limit" = none → q.limit = 50) := by
  unfold readQuery at hq
  cases h1 : (if (JsValue.object props).has "topic" = true
      then ((JsValue.object props).get "topic").utf8Value else pure "") with
  | error e =>
    simp only [h1, error_bind] at hq
    cases hq
  | ok t =>
    cases h2 : (if (JsValue.object props).has "importance_min" = true
        then ((JsValue.object props).get "importance_min").int32Value else pure 1) with
    | error e =>
      simp only [h1, h2, ok_bind, error_bind] at hq
      cases hq
    | ok m =>
      cases h3 : (if (JsValue.object props).has "limit" = true
          then ((JsValue.object props).get "limit").int32Value else pure 50) with
      | error e =>
        simp only [h1, h2, h3, ok_bind, error_bind] at hq
        cases hq
      | ok l =>
        simp only [h1, h2, h3, ok_bind] at hq
        have hq2 : (Except.ok (Query.mk t m l) : Except NapiError Query) = .ok q := hq
        injection hq2 with hq3
        subst hq3
        refine ⟨fun h => ?_, fun h => ?_, fun h => ?_⟩
        · simp only [JsValue.has, h, Option.isSome_none, Bool.false_eq_true, if_false] at h1
          injection h1 with h1
          exact h1.symm
        · simp only [JsValue.has, h, Option.isSome_none, Bool.false_eq_true, if_false] at h2
          injection h2 with h2
          exact h2.symm
        · simp only [JsValue.has, h, Option.isSome_none, Bool.false_eq_true, if_false] at h3
          injection h3 with h3
          exact h3.symm

/-- C11. Query defaults: a query object without `importance_min` gives the
result of the same object with `importance_min = 1`, one without `limit` the
result of the same object with `limit = 50`, one without `topic` the result of
the same object with the empty topic; the values the code then works with are
`1`, `50` and the empty topic filter. -/
theorem Search_query_defaults (sort : StdSort) (a0 : JsValue)
    (props : List (String × JsValue)) (more : List JsValue) :
    (props.lookup "importance_min" = none →
      Search sort (a0 :: .object props :: more) =
        Search sort (a0 :: .object (("importance_min", .number 1) :: props) :: more)) ∧
    (props.lookup "limit" = none →
      Search sort (a0 :: .object props :: more) =
        Search sort (a0 :: .object (("limit", .number 50) :: props) :: more)) ∧
    (props.lookup "topic" = none →
      Search sort (a0 :: .object props :: more) =
        Search sort (a0 :: .object (("topic", .string "") :: props) :: more)) ∧
    (∀ q, readQuery (.object props) = .ok q →
      (props.lookup "topic" = none → q.topicFilter = "") ∧
      (props.lookup "importance_min" = none → q.importanceMin = 1) ∧
      (props.lookup "limit" = none → q.limit = 50)) := by
  refine ⟨fun h => ?_, fun h => ?_, fun h => ?_, fun q hq => readQuery_absent_values props q hq⟩
  · exact Search_congr_query sort a0 _ _ more rfl (readQuery_default_importanceMin props h).symm
  · exact Search_congr_query sort a0 _ _ more rfl (readQuery_default_limit props h).symm
  · exact Search_congr_query sort a0 _ _ more rfl (readQuery_default_topic props h).symm

theorem Search_query_defaults_witness :
    Search stableSort (.array exampleRows :: .object [] :: []) =
        Search stableSort (.array exampleRows :: .object [("importance_min", .number 1)] :: []) ∧
      Search stableSort (.array exampleRows :: .object [] :: []) =
        Search stableSort (.array exampleRows :: .object [("limit", .number 50)] :: []) ∧
      Search stableSort (.array exampleRows :: .object [] :: []) =
        Search stableSort (.array exampleRows :: .object [("topic", .string "")] :: []) :=
  ⟨(Search_query_defaults stableSort (.array exampleRows) [] []).1 rfl,
    (Search_query_defaults stableSort (.array exampleRows) [] []).2.1 rfl,
    (Search_query_defaults stableSort (.array exampleRows) [] []).2.2.1 rfl⟩

/-! ## Score arithmetic -/

/-- C12: the code on the failing input.  `wrapRow` has a 32-bit importance and
a 64-bit timestamp, the sum of line 46 overflows, the computed score is not
`importance * 100000 + ts`, and the comparator orders `plainRow` before it
although its score `importance * 100000 + ts` is smaller. -/
theorem score_overflow_counterexample :
    wrapRow.inRange ∧ plainRow.inRange ∧
      score wrapRow = -9223372036854676832 ∧
      wrapRow.importance * 100000 + wrapRow.ts = 9223372036854874784 ∧
      score wrapRow ≠ wrapRow.importance * 100000 + wrapRow.ts ∧
      comp plainRow wrapRow = true ∧
      plainRow.importance * 100000 + plainRow.ts < wrapRow.importance * 100000 + wrapRow.ts := by
  refine ⟨?_, ?_, by rfl, by rfl, by decide, by rfl, by decide⟩
  · unfold Row.inRange wrapRow
    decide
  · unfold Row.inRange plainRow
    decide

/-- For rows with a 32-bit importance and a 64-bit timestamp the product
`importance * 100000` never leaves the 64-bit range, and for those whose sum
`importance * 100000 + ts` lies in the 64-bit range the computed score is that
sum, so the comparator orders two such rows as their exact scores do. -/
theorem score_exact_when_fits (a b : Row) (ha : a.inRange) (hb : b.inRange)
    (hfa : a.scoreFits) (hfb : b.scoreFits) :
    wrap64 (a.importance * 100000) = a.importance * 100000 ∧
      score a = a.importance * 100000 + a.ts ∧ score b = b.importance * 100000 + b.ts ∧
      (comp a b = true ↔ a.importance * 100000 + a.ts > b.importance * 100000 + b.ts) := by
  have h1 : score a = exactScore a := score_eq_exact a ha hfa.1 hfa.2
  have h2 : score b = exactScore b := score_eq_exact b hb hfb.1 hfb.2
  refine ⟨?_, h1, h2, ?_⟩
  · obtain ⟨_, _, h3, h4⟩ := ha
    apply wrap64_of_range <;> norm_num at h3 h4 ⊢ <;> omega
  · unfold comp
    rw [h1, h2, decide_eq_true_eq]
    rfl

theorem score_exact_when_fits_witness :
    wrap64 (plainRow.importance * 100000) = plainRow.importance * 100000 ∧
      score plainRow = plainRow.importance * 100000 + plainRow.ts ∧
      score (Row.mk 3 5 9 "b" "z") =
        (Row.mk 3 5 9 "b" "z").importance * 100000 + (Row.mk 3 5 9 "b" "z").ts ∧
      (comp plainRow (Row.mk 3 5 9 "b" "z") = true ↔
        plainRow.importance * 100000 + plainRow.ts >
          (Row.mk 3 5 9 "b" "z").importance * 100000 + (Row.mk 3 5 9 "b" "z").ts) :=
  score_exact_when_fits plainRow (Row.mk 3 5 9 "b" "z")
    (by unfold Row.inRange plainRow; decide) (by unfold Row.inRange; decide)
    (by unfold Row.scoreFits exactScore plainRow; decide)
    (by unfold Row.scoreFits exactScore; decide)

/-! ## The worked examples -/

/-- C13. Worked example 1: on the three example records with the query
`{importance_min: 1, limit: 2}` the scores are 500010, 500020 and 900005, and
the call returns the records with ids 3 and 2, in that order, whatever
`std::sort` is in use. -/
theorem Search_example_one (sort : StdSort) :
    inputRecords exampleRows = .ok exampleRecords ∧
      exampleRecords.map score = [500010, 500020, 900005] ∧
      exampleRecords.map exactScore = [500010, 500020, 900005] ∧
      Search sort (.array exampleRows ::
          .object [("importance_min", .number 1), ("limit", .number 2)] :: []) =
        .ok (.array
          [ .object [("id", .number 3), ("ts", .number 5), ("importance", .number 9),
              ("topic", .string "b"), ("content", .string "z")],
            .object [("id", .number 2), ("ts", .number 20), ("importance", .number 5),
              ("topic", .string "a"), ("content", .string "y")] ]) := by
  refine ⟨by rfl, by rfl, by rfl, ?_⟩
  rw [Search_any_sort sort stableSort exampleRows _ [] (Query.mk "" 1 2) exampleRecords
    (by rfl) (by rfl) (by rfl) (by decide)]
  rfl

/-- C14. Worked example 2: on the three example records with the query
`{topic: "a", limit: 10}` the record with id 3 does not pass the filter and
the call returns the records with ids 2 and 1, in that order, whatever
`std::sort` is in use. -/
theorem Search_example_two (sort : StdSort) :
    readQuery (.object [("topic", .string "a"), ("limit", .number 10)]) =
        .ok (Query.mk "a" 1 10) ∧
      exampleRecords.filter (passes (Query.mk "a" 1 10)) =
        [Row.mk 1 10 5 "a" "x", Row.mk 2 20 5 "a" "y"] ∧
      Search sort (.array exampleRows ::
          .object [("topic", .string "a"), ("limit", .number 10)] :: []) =
        .ok (.array
          [ .object [("id", .number 2), ("ts", .number 20), ("importance", .number 5),
              ("topic", .string "a"), ("content", .string "y")],
            .object [("id", .number 1), ("ts", .number 10), ("importance", .number 5),
              ("topic", .string "a"), ("content", .string "x")] ]) := by
  refine ⟨by rfl, by rfl, ?_⟩
  rw [Search_any_sort sort stableSort exampleRows _ [] (Query.mk "a" 1 10) exampleRecords
    (by rfl) (by rfl) (by rfl) (by decide)]
  rfl

/-! ## Importance and recency -/

theorem selected_before (sort : StdSort) (q : Query) (rows : List Row) (a b : Row)
    (hlt : score b < score a) (i j : Fin (selected sort q rows).length)
    (hi : (selected sort q rows).get i = a) (hj : (selected sort q rows).get j = b) : i < j := by
  by_contra hnot
  rcases lt_or_eq_of_le (not_lt.1 hnot) with h | h
  · have h2 := List.pairwise_iff_get.1 (selected_pairwise sort q rows) j i h
    unfold scoreGe at h2
    rw [hi, hj] at h2
    exact absurd hlt (not_lt.2 h2)
  · rw [h, hi] at hj
    rw [hj] at hlt
    exact lt_irrefl _ hlt

theorem selected_score_eq (sort : StdSort) (vs : List JsValue) (q : Query) (rows : List Row)
    (hrows : inputRecords vs = .ok rows) (a : Row) (ha : a ∈ selected sort q rows)
    (hfit : a.scoreFits) : score a = exactScore a :=
  score_eq_exact a
    (inputRecords_inRange vs rows hrows a (mem_selected_passes sort q rows a ha).1)
    hfit.1 hfit.2

/-- C16: the code on the failing input.  `wrapRow` and `plainRow` have the
same importance, `wrapRow` has the later timestamp, and it is returned after
`plainRow`, because its sum on line 46 overflows 64 bits. -/
theorem Search_recency_counterexample :
    wrapRow.importance = plainRow.importance ∧ wrapRow.ts > plainRow.ts ∧
      Search stableSort (.array wrapRows :: .object [] :: []) =
        .ok (.array [rowToJs plainRow, rowToJs wrapRow]) ∧
      rowToJs plainRow ≠ rowToJs wrapRow := by
  refine ⟨by decide, by decide, by rfl, ?_⟩
  intro h
  unfold rowToJs plainRow wrapRow at h
  injection h with h
  injection h with h1 _
  injection h1 with _ h2
  injection h2 with h3
  revert h3
  decide

/-- Where the sum of line 46 does not overflow, recency decides within an
importance tier: of two returned records with the same importance the one with
the later timestamp stands first. -/
theorem Search_recency_tiebreak (sort : StdSort) (vs : List JsValue) (qv : JsValue)
    (more : List JsValue) (q : Query) (rows : List Row) (hobj : qv.isObject = true)
    (hq : readQuery qv = .ok q) (hrows : inputRecords vs = .ok rows) (a b : Row)
    (himp : a.importance = b.importance) (hts : a.ts > b.ts)
    (hfa : a.scoreFits) (hfb : b.scoreFits) :
    ∃ res : List Row,
      Search sort (.array vs :: qv :: more) = .ok (.array (res.map rowToJs)) ∧
      ∀ i j : Fin res.length, res.get i = a → res.get j = b → i < j := by
  refine ⟨selected sort q rows, Search_ok sort vs qv more q rows hobj hq hrows, ?_⟩
  intro i j hi hj
  have ha : a ∈ selected sort q rows := hi ▸ List.get_mem _ i.1 i.2
  have hb : b ∈ selected sort q rows := hj ▸ List.get_mem _ j.1 j.2
  have h1 := selected_score_eq sort vs q rows hrows a ha hfa
  have h2 := selected_score_eq sort vs q rows hrows b hb hfb
  refine selected_before sort q rows a b ?_ i j hi hj
  rw [h1, h2]
  unfold exactScore
  omega

theorem Search_recency_tiebreak_witness :
    ∃ res : List Row,
      Search stableSort (.array exampleRows :: .object [("topic", .string "a")] :: []) =
        .ok (.array (res.map rowToJs)) ∧
      ∀ i j : Fin res.length, res.get i = Row.mk 2 20 5 "a" "y" →
        res.get j = Row.mk 1 10 5 "a" "x" → i < j :=
  Search_recency_tiebreak stableSort exampleRows (.object [("topic", .string "a")]) []
    (Query.mk "a" 1 50) exampleRecords (by rfl) (by rfl) (by rfl)
    (Row.mk 2 20 5 "a" "y") (Row.mk 1 10 5 "a" "x") (by decide) (by decide)
    (by unfold Row.scoreFits exactScore; decide) (by unfold Row.scoreFits exactScore; decide)

/-! ## Independence of the input order -/

theorem inputRecords_eq_filterMap :
    ∀ (vs : List JsValue) (rows : List Row), inputRecords vs = .ok rows →
      rows = vs.filterMap rowOf
  | [], rows, h => by
    have h2 : (Except.ok [] : Except NapiError (List Row)) = .ok rows := h
    injection h2 with h3
    subst h3
    rfl
  | v :: vs, rows, h => by
    unfold inputRecords at h
    cases hv : v.isObject with
    | false =>
      simp only [hv, Bool.false_eq_true, if_false] at h
      have h0 : rowOf v = none := by simp [rowOf, hv]
      rw [List.filterMap_cons_none h0]
      exact inputRecords_eq_filterMap vs rows h
    | true =>
      simp only [hv, if_true] at h
      cases hr : readRow v with
      | error e =>
        simp only [hr, error_bind] at h
        cases h
      | ok row =>
        cases hrest : inputRecords vs with
        | error e =>
          simp only [hr, hrest, ok_bind, error_bind] at h
          cases h
        | ok rest =>
          simp only [hr, hrest, ok_bind] at h
          have h2 : (Except.ok (row :: rest) : Except NapiError (List Row)) = .ok rows := h
          injection h2 with h3
          subst h3
          have h0 : rowOf v = some row := by simp [rowOf, hv, hr]
          rw [List.filterMap_cons_some h0, ← inputRecords_eq_filterMap vs rest hrest]

theorem inputRecords_readable :
    ∀ (vs : List JsValue) (rows : List Row), inputRecords vs = .ok rows →
      ∀ v ∈ vs, v.isObject = true → ∃ r, readRow v = .ok r
  | [], _, _ => by
    intro v hv
    cases hv
  | v :: vs, rows, h => by
    unfold inputRecords at h
    cases hv : v.isObject with
    | false =>
      simp only [hv, Bool.false_eq_true, if_false] at h
      intro w hw hwo
      rcases List.mem_cons.1 hw with h1 | h1
      · subst h1
        rw [hv] at hwo
        cases hwo
      · exact inputRecords_readable vs rows h w h1 hwo
    | true =>
      simp only [hv, if_true] at h
      cases hr : readRow v with
      | error e =>
        simp only [hr, error_bind] at h
        cases h
      | ok row =>
        cases hrest : inputRecords vs with
        | error e =>
          simp only [hr, hrest, ok_bind, error_bind] at h
          cases h
        | ok rest =>
          intro w hw hwo
          rcases List.mem_cons.1 hw with h1 | h1
          · subst h1
            exact ⟨row, hr⟩
          · exact inputRecords_readable vs rest hrest w h1 hwo

theorem inputRecords_of_readable :
    ∀ vs : List JsValue, (∀ v ∈ vs, v.isObject = true → ∃ r, readRow v = .ok r) →
      ∃ rows, inputRecords vs = .ok rows
  | [], _ => ⟨[], rfl⟩
  | v :: vs, h => by
    obtain ⟨rest, hrest⟩ :=
      inputRecords_of_readable vs (fun w hw => h w (List.mem_cons_of_mem _ hw))
    unfold inputRecords
    cases hv : v.isObject with
    | false =>
      simp only [Bool.false_eq_true, if_false]
      exact ⟨rest, hrest⟩
    | true =>
      obtain ⟨r, hr⟩ := h v (List.mem_cons_self _ _) hv
      simp only [if_true]
      rw [hr, hrest]
      exact ⟨r :: rest, rfl⟩

theorem inputRecords_perm (vs1 vs2 : List JsValue) (rows1 : List Row)
    (hperm : vs1.Perm vs2) (h1 : inputRecords vs1 = .ok rows1) :
    ∃ rows2, inputRecords vs2 = .ok rows2 ∧ rows1.Perm rows2 := by
  obtain ⟨rows2, h2⟩ := inputRecords_of_readable vs2
    (fun v hv ho => inputRecords_readable vs1 rows1 h1 v (hperm.symm.subset hv) ho)
  refine ⟨rows2, h2, ?_⟩
  rw [inputRecords_eq_filterMap vs1 rows1 h1, inputRecords_eq_filterMap vs2 rows2 h2]
  exact hperm.filterMap rowOf

theorem selected_perm (sort : StdSort) (q : Query) (rows1 rows2 : List Row)
    (hperm : rows1.Perm rows2) (hdistinct : ((rows1.filter (passes q)).map score).Nodup) :
    selected sort q rows1 = selected sort q rows2 := by
  have hf : (rows1.filter (passes q)).Perm (rows2.filter (passes q)) := hperm.filter _
  have hd2 : ((rows2.filter (passes q)).map score).Nodup := (hf.map score).nodup_iff.1 hdistinct
  haveI : IsAntisymm Row (fun a b => score b < score a) :=
    ⟨fun _ _ hab hba => absurd hab (lt_asymm hba)⟩
  have hrun : sort.run (rows1.filter (passes q)) = sort.run (rows2.filter (passes q)) :=
    List.eq_of_perm_of_sorted (((sort.perm _).trans hf).trans (sort.perm _).symm)
      (run_pairwise_gt sort _ hdistinct) (run_pairwise_gt sort _ hd2)
  unfold selected
  rw [hrun]

/-- When the values the comparator computes for the records that pass the
filter are pairwise distinct, the call returns the same array for every
rearrangement of the input array. -/
theorem Search_input_order (sort : StdSort) (vs1 vs2 : List JsValue) (qv : JsValue)
    (more : List JsValue) (q : Query) (rows : List Row) (hobj : qv.isObject = true)
    (hq : readQuery qv = .ok q) (hrows : inputRecords vs1 = .ok rows)
    (hperm : vs1.Perm vs2) (hdistinct : ((rows.filter (passes q)).map score).Nodup) :
    ∃ out : List JsValue, Search sort (.array vs1 :: qv :: more) = .ok (.array out) ∧
      Search sort (.array vs2 :: qv :: more) = .ok (.array out) := by
  obtain ⟨rows2, h2, hp⟩ := inputRecords_perm vs1 vs2 rows hperm hrows
  refine ⟨(selected sort q rows).map rowToJs, Search_ok sort vs1 qv more q rows hobj hq hrows, ?_⟩
  rw [Search_ok sort vs2 qv more q rows2 hobj hq h2, selected_perm sort q rows rows2 hp hdistinct]

theorem Search_input_order_witness :
    ∃ out : List JsValue,
      Search stableSort (.array exampleRows :: .object [("limit", .number 2)] :: []) =
        .ok (.array out) ∧
      Search stableSort (.array exampleRows.reverse :: .object [("limit", .number 2)] :: []) =
        .ok (.array out) :=
  Search_input_order stableSort exampleRows exampleRows.reverse
    (.object [("limit", .number 2)]) [] (Query.mk "" 1 2) exampleRecords (by rfl) (by rfl)
    (by rfl) (List.reverse_perm exampleRows).symm (by decide)

/-- Outside the 64-bit range two different exact scores can be one computed
score: importance 128 with `ts = 2^63 - 6400000` and importance 0 with
`ts = -2^63 + 6400000`. -/
theorem score_collision_example :
    (Row.mk 1 9223372036848375808 128 "a" "x").inRange ∧
      (Row.mk 2 (-9223372036848375808) 0 "a" "y").inRange ∧
      exactScore (Row.mk 1 9223372036848375808 128 "a" "x") ≠
        exactScore (Row.mk 2 (-9223372036848375808) 0 "a" "y") ∧
      score (Row.mk 1 9223372036848375808 128 "a" "x") =
        score (Row.mk 2 (-9223372036848375808) 0 "a" "y") := by
  refine ⟨?_, ?_, by decide, by rfl⟩
  · unfold Row.inRange
    decide
  · unfold Row.inRange
    decide

theorem passes_congr (q1 q2 : Query) (htopic : q1.topicFilter = q2.topicFilter)
    (hmin : q1.importanceMin = q2.importanceMin) : passes q1 = passes q2 := by
  funext r
  unfold passes
  rw [htopic, hmin]

theorem outCount_mono (buff : List Row) (k1 k2 : Int) (h : k1 ≤ k2) :
    (outCount buff k1).toNat ≤ (outCount buff k2).toNat := by
  unfold outCount
  have h2 : min (wrap32 (buff.length : Int)) k1 ≤ min (wrap32 (buff.length : Int)) k2 :=
    min_le_min_left _ h
  omega

theorem take_initial_segment (l : List Row) (n m : Nat) (h : n ≤ m) :
    l.take n <+: l.take m := by
  refine ⟨(l.take m).drop n, ?_⟩
  have h2 : l.take n = (l.take m).take n := by
    rw [List.take_take, Nat.min_eq_left h]
  rw [h2, List.take_append_drop]

/-! ## The comparator -/

theorem comp_iff (a b : Row) : comp a b = true ↔ score a > score b := by
  unfold comp
  exact decide_eq_true_iff

theorem comp_false_iff (a b : Row) : comp a b = false ↔ score a ≤ score b := by
  unfold comp
  rw [decide_eq_false_iff_not, not_lt]

/-- C19. The comparator of the sort orders `a` before `b` exactly when the
score of `a` is greater than the score of `b`, and it is a strict weak
ordering: irreflexive, asymmetric and transitive, with a transitive
incomparability relation, which is equality of scores. -/
theorem comp_strict_weak_ordering :
    (∀ a b : Row, comp a b = true ↔ score a > score b) ∧
    (∀ a : Row, comp a a = false) ∧
    (∀ a b : Row, comp a b = true → comp b a = false) ∧
    (∀ a b c : Row, comp a b = true → comp b c = true → comp a c = true) ∧
    (∀ a b : Row, (comp a b = false ∧ comp b a = false) ↔ score a = score b) ∧
    (∀ a b c : Row, (comp a b = false ∧ comp b a = false) →
      (comp b c = false ∧ comp c b = false) → (comp a c = false ∧ comp c a = false)) := by
  refine ⟨comp_iff, ?_, ?_, ?_, ?_, ?_⟩
  · intro a
    exact (comp_false_iff a a).2 (le_refl _)
  · intro a b h
    exact (comp_false_iff b a).2 (le_of_lt ((comp_iff a b).1 h))
  · intro a b c h1 h2
    exact (comp_iff a c).2 (lt_trans ((comp_iff b c).1 h2) ((comp_iff a b).1 h1))
  · intro a b
    constructor
    · rintro ⟨h1, h2⟩
      exact le_antisymm ((comp_false_iff a b).1 h1) ((comp_false_iff b a).1 h2)
    · intro h
      exact ⟨(comp_false_iff a b).2 (le_of_eq h), (comp_false_iff b a).2 (le_of_eq h.symm)⟩
  · rintro a b c ⟨h1, h2⟩ ⟨h3, h4⟩
    exact ⟨(comp_false_iff a c).2
        (le_trans ((comp_false_iff a b).1 h1) ((comp_false_iff b c).1 h3)),
      (comp_false_iff c a).2
        (le_trans ((comp_false_iff c b).1 h4) ((comp_false_iff b a).1 h2))⟩

/-! ## From the arguments as given to the values read -/

theorem read_number_of_stated (qv : JsValue) (key : String) (dflt n : Int)
    (hd : wrap32 dflt = dflt) (h : statedNumber qv key dflt = some n) :
    (if qv.has key = true then (qv.get key).int32Value else pure dflt) =
      Except.ok (wrap32 n) := by
  unfold statedNumber at h
  by_cases hh : qv.has key = true
  · simp only [hh, if_true] at h ⊢
    cases hg : qv.get key <;> rw [hg] at h <;> simp at h
    subst h
    rfl
  · simp only [hh, if_false] at h ⊢
    injection h with h
    subst h
    rw [hd]
    rfl

theorem read_topic_of_stated (qv : JsValue) (t : String) (h : statedTopic qv = some t) :
    (if qv.has "topic" = true then (qv.get "topic").utf8Value else pure "") = Except.ok t := by
  unfold statedTopic at h
  by_cases hh : qv.has "topic" = true
  · simp only [hh, if_true] at h ⊢
    cases hg : qv.get "topic" <;> rw [hg] at h <;> simp at h
    subst h
    rfl
  · simp only [hh, if_false] at h ⊢
    injection h with h
    subst h
    rfl

theorem readQuery_of_stated (qv : JsValue) (t : String) (m k : Int)
    (ht : statedTopic qv = some t) (hm : statedImportanceMin qv = some m)
    (hk : statedLimit qv = some k) :
    readQuery qv = .ok (Query.mk t (wrap32 m) (wrap32 k)) := by
  unfold readQuery
  rw [read_topic_of_stated qv t ht,
    read_number_of_stated qv "importance_min" 1 m (by decide) hm,
    read_number_of_stated qv "limit" 50 k (by decide) hk]
  rfl

theorem wrap32_of_fits (n : Int) (h : fitsInt32 n = true) : wrap32 n = n := by
  unfold fitsInt32 at h
  rw [decide_eq_true_eq] at h
  exact wrap32_of_range n h.1 h.2

theorem rowToJs_importance (r : Row) : (rowToJs r).get "importance" = .number r.importance :=
  rfl

theorem rowToJs_topic (r : Row) : (rowToJs r).get "topic" = .string r.topic := rfl

/-! ## Filter correctness -/

theorem Search_of_stated (sort : StdSort) (vs : List JsValue) (qv : JsValue)
    (more : List JsValue) (t : String) (m k : Int) (hobj : qv.isObject = true)
    (ht : statedTopic qv = some t) (hm : statedImportanceMin qv = some m)
    (hk : statedLimit qv = some k)
    (hwt : ∀ v ∈ vs, v.isObject = true → wellTypedRecord v = true) :
    ∃ rows, inputRecords vs = .ok rows ∧
      Search sort (.array vs :: qv :: more) =
        .ok (.array ((selected sort (Query.mk t (wrap32 m) (wrap32 k)) rows).map rowToJs)) := by
  obtain ⟨rows, hrows⟩ := inputRecords_ok vs hwt
  exact ⟨rows, hrows, Search_ok sort vs qv more _ rows hobj
    (readQuery_of_stated qv t m k ht hm hk) hrows⟩

/-- C1, as stated, fails: `importance_min = 2147483648` is read into an `int`
as `-2147483648`, and the three example records, of importance 5, 5 and 9, are
all returned. -/
theorem Search_filter_counterexample :
    statedImportanceMin (.object [("importance_min", .number 2147483648)]) = some 2147483648 ∧
      Search stableSort
          (.array exampleRows :: .object [("importance_min", .number 2147483648)] :: []) =
        .ok (.array ([Row.mk 3 5 9 "b" "z", Row.mk 2 20 5 "a" "y",
          Row.mk 1 10 5 "a" "x"].map rowToJs)) ∧
      (rowToJs (Row.mk 3 5 9 "b" "z")).get "importance" = .number 9 ∧
      ¬ ((2147483648 : Int) ≤ 9) := by
  refine ⟨by rfl, by rfl, by rfl, by decide⟩

/-- C1, amended. Filter correctness: for a query whose `importance_min` lies in
the range of a 32-bit signed integer, every object of the output has an
importance that is at least `importance_min` and, when the topic filter of the
query is not empty, a topic equal to it. -/
theorem Search_filter_correct (sort : StdSort) (vs : List JsValue) (qv : JsValue)
    (more : List JsValue) (t : String) (m k : Int) (hobj : qv.isObject = true)
    (ht : statedTopic qv = some t) (hm : statedImportanceMin qv = some m)
    (hk : statedLimit qv = some k) (hrange : fitsInt32 m = true)
    (hwt : ∀ v ∈ vs, v.isObject = true → wellTypedRecord v = true) :
    ∃ out : List JsValue, Search sort (.array vs :: qv :: more) = .ok (.array out) ∧
      ∀ o ∈ out, ∃ (p : Int) (s : String), o.get "importance" = .number p ∧
        o.get "topic" = .string s ∧ m ≤ p ∧ (t ≠ "" → s = t) := by
  obtain ⟨rows, _, hs⟩ := Search_of_stated sort vs qv more t m k hobj ht hm hk hwt
  refine ⟨_, hs, ?_⟩
  intro o ho
  obtain ⟨r, hr, rfl⟩ := List.mem_map.1 ho
  have hp := (passes_iff _ r).1 (mem_selected_passes sort _ rows r hr).2
  rw [wrap32_of_fits m hrange] at hp
  refine ⟨r.importance, r.topic, rowToJs_importance r, rowToJs_topic r, hp.2, fun hne => ?_⟩
  rcases hp.1 with h | h
  · exact absurd h hne
  · exact h

theorem Search_filter_correct_witness :
    ∃ out : List JsValue,
      Search stableSort
          (.array exampleRows :: .object [("topic", .string "a"), ("limit", .number 10)] :: []) =
        .ok (.array out) ∧
      ∀ o ∈ out, ∃ (p : Int) (s : String), o.get "importance" = .number p ∧
        o.get "topic" = .string s ∧ (1 : Int) ≤ p ∧ ("a" ≠ "" → s = "a") :=
  Search_filter_correct stableSort exampleRows
    (.object [("topic", .string "a"), ("limit", .number 10)]) [] "a" 1 10
    (by rfl) (by rfl) (by rfl) (by rfl) (by decide) (by decide)

/-! ## Length of the output, on the arguments as given -/

theorem readRow_fields (v : JsValue) (r : Row) (h : readRow v = .ok r) :
    ∃ (i ts p : Int) (s c : String), v.get "id" = .number i ∧ v.get "ts" = .number ts ∧
      v.get "importance" = .number p ∧ v.get "topic" = .string s ∧
      v.get "content" = .string c ∧ r = Row.mk (clamp64 i) (clamp64 ts) (wrap32 p) s c := by
  unfold readRow at h
  cases h1 : (v.get "id") <;> simp [h1, JsValue.int64Value, bind, Except.bind] at h
  rename_i n1
  cases h2 : (v.get "ts") <;> simp [h2, JsValue.int64Value, bind, Except.bind] at h
  rename_i n2
  cases h3 : (v.get "importance") <;> simp [h3, JsValue.int32Value, bind, Except.bind] at h
  rename_i n3
  cases h4 : (v.get "topic") <;> simp [h4, JsValue.utf8Value, bind, Except.bind] at h
  rename_i s4
  cases h5 : (v.get "content") <;>
    simp [h5, JsValue.utf8Value, bind, Except.bind, pure, Except.pure] at h
  rename_i s5
  exact ⟨n1, n2, n3, s4, s5, rfl, rfl, rfl, rfl, rfl, h.symm⟩

theorem entryPasses_eq_passes (t : String) (m k : Int) (v : JsValue) (r : Row)
    (hr : readRow v = .ok r) (hfit : importanceFits v = true) :
    entryPasses t m v = passes (Query.mk t m k) r := by
  obtain ⟨i, ts, p, s, c, _, _, h3, h4, _, rfl⟩ := readRow_fields v r hr
  unfold importanceFits at hfit
  rw [h3] at hfit
  unfold entryPasses passes
  rw [h3, h4]
  simp only [wrap32_of_fits p hfit]

theorem passing_count (t : String) (m k : Int) :
    ∀ (vs : List JsValue) (rows : List Row), inputRecords vs = .ok rows →
      (∀ v ∈ vs, v.isObject = true → importanceFits v = true) →
      (rows.filter (passes (Query.mk t m k))).length =
        ((vs.filter JsValue.isObject).filter (entryPasses t m)).length
  | [], rows, h, _ => by
    have h2 : (Except.ok [] : Except NapiError (List Row)) = .ok rows := h
    injection h2 with h3
    subst h3
    rfl
  | v :: vs, rows, h, hfit => by
    unfold inputRecords at h
    cases hv : v.isObject with
    | false =>
      simp only [hv, Bool.false_eq_true, if_false] at h
      rw [List.filter_cons_of_neg (by simp [hv])]
      exact passing_count t m k vs rows h (fun w hw => hfit w (List.mem_cons_of_mem _ hw))
    | true =>
      simp only [hv, if_true] at h
      cases hr : readRow v with
      | error e =>
        simp only [hr, error_bind] at h
        cases h
      | ok row =>
        cases hrest : inputRecords vs with
        | error e =>
          simp only [hr, hrest, ok_bind, error_bind] at h
          cases h
        | ok rest =>
          simp only [hr, hrest, ok_bind] at h
          have h2 : (Except.ok (row :: rest) : Except NapiError (List Row)) = .ok rows := h
          injection h2 with h3
          subst h3
          have ih := passing_count t m k vs rest hrest
            (fun w hw => hfit w (List.mem_cons_of_mem _ hw))
          have he := entryPasses_eq_passes t m k v row hr (hfit v (List.mem_cons_self _ _) hv)
          rw [List.filter_cons_of_pos hv]
          simp only [List.filter_cons, he]
          cases passes (Query.mk t m k) row <;> simp [ih]

theorem passes_limit_irrelevant (t : String) (m k1 k2 : Int) :
    passes (Query.mk t m k1) = passes (Query.mk t m k2) := rfl

theorem inputRecords_replicate (v : JsValue) (r : Row) (hv : v.isObject = true)
    (hr : readRow v = .ok r) :
    ∀ n : Nat, inputRecords (List.replicate n v) = .ok (List.replicate n r)
  | 0 => rfl
  | n + 1 => by
    rw [List.replicate_succ, List.replicate_succ]
    unfold inputRecords
    simp only [hv, if_true, hr, inputRecords_replicate v r hv hr n, ok_bind]
    rfl

theorem Search_replicate_empty (sort : StdSort) (n : Nat) (hn : wrap32 (n : Int) ≤ 0) :
    Search sort (.array (List.replicate n exampleEntry) :: .object [] :: []) =
      .ok (.array []) := by
  rw [Search_ok sort (List.replicate n exampleEntry) (.object []) [] (Query.mk "" 1 50)
    (List.replicate n (Row.mk 1 10 5 "a" "x")) rfl rfl
    (inputRecords_replicate exampleEntry (Row.mk 1 10 5 "a" "x") rfl rfl n)]
  have hc : (outCount (sort.run ((List.replicate n (Row.mk 1 10 5 "a" "x")).filter
      (passes (Query.mk "" 1 50)))) 50).toNat = 0 := by
    unfold outCount
    rw [run_length, List.filter_replicate_of_pos (by rfl), List.length_replicate]
    have h := min_le_left (wrap32 (n : Int)) 50
    omega
  unfold selected
  show Except.ok (JsValue.array (((sort.run ((List.replicate n (Row.mk 1 10 5 "a" "x")).filter
    (passes (Query.mk "" 1 50)))).take (outCount (sort.run ((List.replicate n
      (Row.mk 1 10 5 "a" "x")).filter (passes (Query.mk "" 1 50)))) 50).toNat).map rowToJs)) = _
  rw [hc]
  rfl

/-- C4, as stated, fails.  A limit of `2147483648` is read into an `int` as
`-2147483648` and nothing is returned although three records pass; with
`importance_min = 2147483648`, read as `-2147483648`, three records are
returned although none passes; an importance of `4294967301`, read as `5`,
fails `importance_min = 10` in the code although the record passes; and of
`2^31` records that all pass none is returned under the default limit of 50,
the count `(int)buff.size()` being `-2147483648`. -/
theorem Search_length_exact_counterexample :
    (statedLimit (.object [("limit", .number 2147483648)]) = some 2147483648 ∧
      Search stableSort (.array exampleRows :: .object [("limit", .number 2147483648)] :: []) =
        .ok (.array []) ∧
      ((exampleRows.filter JsValue.isObject).filter (entryPasses "" 1)).length = 3) ∧
    (∃ out : List JsValue,
      Search stableSort
          (.array exampleRows :: .object [("importance_min", .number 2147483648)] :: []) =
        .ok (.array out) ∧ out.length = 3 ∧
      ((exampleRows.filter JsValue.isObject).filter (entryPasses "" 2147483648)).length = 0) ∧
    (Search stableSort
        (.array [ .object [("id", .number 1), ("ts", .number 10),
            ("importance", .number 4294967301), ("topic", .string "a"),
            ("content", .string "x")] ] ::
          .object [("importance_min", .number 10)] :: []) = .ok (.array []) ∧
      (([ JsValue.object [("id", .number 1), ("ts", .number 10),
            ("importance", .number 4294967301), ("topic", .string "a"),
            ("content", .string "x")] ].filter JsValue.isObject).filter
          (entryPasses "" 10)).length = 1) ∧
    (Search stableSort (.array (List.replicate 2147483648 exampleEntry) :: .object [] :: []) =
        .ok (.array []) ∧
      (((List.replicate 2147483648 exampleEntry).filter JsValue.isObject).filter
        (entryPasses "" 1)).length = 2147483648) := by
  refine ⟨⟨by rfl, by rfl, by rfl⟩, ⟨_, by rfl, by rfl, by rfl⟩, ⟨by rfl, by rfl⟩, ⟨?_, ?_⟩⟩
  · exact Search_replicate_empty stableSort 2147483648 (by decide)
  · rw [List.filter_replicate_of_pos (by rfl), List.filter_replicate_of_pos (by rfl),
      List.length_replicate]

/-- C4, amended. Exact result length: for a query whose limit is not negative
and whose limit and `importance_min` lie in the range of a 32-bit signed
integer, and an input whose records have an importance in that range and of
which fewer than `2^31` pass the filter, the output has exactly
`min(limit, number of input records passing the filter)` elements. -/
theorem Search_length_exact (sort : StdSort) (vs : List JsValue) (qv : JsValue)
    (more : List JsValue) (t : String) (m k : Int) (hobj : qv.isObject = true)
    (ht : statedTopic qv = some t) (hm : statedImportanceMin qv = some m)
    (hk : statedLimit qv = some k) (hmr : fitsInt32 m = true) (hkr : fitsInt32 k = true)
    (hwt : ∀ v ∈ vs, v.isObject = true → wellTypedRecord v = true)
    (himp : ∀ v ∈ vs, v.isObject = true → importanceFits v = true)
    (hsize : ((vs.filter JsValue.isObject).filter (entryPasses t m)).length < 2 ^ 31)
    (hlimit : 0 ≤ k) :
    ∃ out : List JsValue, Search sort (.array vs :: qv :: more) = .ok (.array out) ∧
      (out.length : Int) =
        min k (((vs.filter JsValue.isObject).filter (entryPasses t m)).length : Int) := by
  obtain ⟨rows, hrows, hs⟩ := Search_of_stated sort vs qv more t m k hobj ht hm hk hwt
  refine ⟨_, hs, ?_⟩
  rw [wrap32_of_fits m hmr, wrap32_of_fits k hkr] at *
  rw [List.length_map, selected_length]
  have hc := passing_count t m k vs rows hrows himp
  have h3 : wrap32 (((sort.run (rows.filter (passes (Query.mk t m k)))).length : Nat) : Int) =
      ((rows.filter (passes (Query.mk t m k))).length : Int) := by
    rw [run_length]
    have hsz : ((rows.filter (passes (Query.mk t m k))).length : Int) < 2 ^ 31 := by
      rw [hc]
      exact_mod_cast hsize
    apply wrap32_of_range
    · have h0 : (0 : Int) ≤ ((rows.filter (passes (Query.mk t m k))).length : Int) :=
        Int.natCast_nonneg _
      have h1 : -(2 ^ 31 : Int) ≤ 0 := by norm_num
      exact le_trans h1 h0
    · exact hsz
  unfold outCount
  rw [h3]
  show ((min (min ((rows.filter (passes (Query.mk t m k))).length : Int) k).toNat
    (rows.filter (passes (Query.mk t m k))).length : Nat) : Int) = _
  rw [← hc]
  omega

theorem Search_length_exact_witness :
    ∃ out : List JsValue,
      Search stableSort (.array exampleRows :: .object [("limit", .number 2)] :: []) =
        .ok (.array out) ∧
      (out.length : Int) =
        min 2 (((exampleRows.filter JsValue.isObject).filter (entryPasses "" 1)).length : Int) :=
  Search_length_exact stableSort exampleRows (.object [("limit", .number 2)]) [] "" 1 2
    (by rfl) (by rfl) (by rfl) (by rfl) (by decide) (by decide) (by decide) (by decide)
    (by decide) (by decide)

/-- C5, as stated, fails.  With `limit = -1` the output is empty and its length
`0` is not `<= limit`; a limit of `-4294967295` is read into an `int` as `1` and
one record is returned; with `importance_min = 2147483648`, read as
`-2147483648`, three records are returned although none passes; and an
importance of `-4294967291`, read as `5`, passes `importance_min = 1` in the
code although the record does not. -/
theorem Search_length_bound_counterexample :
    (statedLimit (.object [("limit", .number (-1))]) = some (-1) ∧
      Search stableSort (.array exampleRows :: .object [("limit", .number (-1))] :: []) =
        .ok (.array []) ∧
      ¬ ((0 : Int) ≤ (([] : List JsValue).length : Int) ∧
        (([] : List JsValue).length : Int) ≤ -1)) ∧
    (statedLimit (.object [("limit", .number (-4294967295))]) = some (-4294967295) ∧
      Search stableSort
          (.array exampleRows :: .object [("limit", .number (-4294967295))] :: []) =
        .ok (.array [rowToJs (Row.mk 3 5 9 "b" "z")]) ∧
      ¬ (([rowToJs (Row.mk 3 5 9 "b" "z")].length : Int) ≤ max (-4294967295) 0)) ∧
    (∃ out : List JsValue,
      Search stableSort
          (.array exampleRows :: .object [("importance_min", .number 2147483648)] :: []) =
        .ok (.array out) ∧ out.length = 3 ∧
      ((exampleRows.filter JsValue.isObject).filter (entryPasses "" 2147483648)).length = 0) ∧
    (∃ out : List JsValue,
      Search stableSort
          (.array [ .object [("id", .number 1), ("ts", .number 10),
              ("importance", .number (-4294967291)), ("topic", .string "a"),
              ("content", .string "x")] ] :: .object [] :: []) = .ok (.array out) ∧
      out.length = 1 ∧
      (([ JsValue.object [("id", .number 1), ("ts", .number 10),
            ("importance", .number (-4294967291)), ("topic", .string "a"),
            ("content", .string "x")] ].filter JsValue.isObject).filter
          (entryPasses "" 1)).length = 0) := by
  refine ⟨⟨by rfl, by rfl, by decide⟩, ⟨by rfl, by rfl, by decide⟩,
    ⟨_, by rfl, by rfl, by rfl⟩, ⟨_, by rfl, by rfl, by rfl⟩⟩

/-- C5, amended. Bounded size: for a query whose limit and `importance_min`
lie in the range of a 32-bit signed integer and an input whose records have an
importance in that range, the length of the output is at most `max(limit, 0)`
(at most `limit` when `limit >= 0`, and `0` when `limit < 0`) and at most the
number of input records passing the filter. -/
theorem Search_length_bound (sort : StdSort) (vs : List JsValue) (qv : JsValue)
    (more : List JsValue) (t : String) (m k : Int) (hobj : qv.isObject = true)
    (ht : statedTopic qv = some t) (hm : statedImportanceMin qv = some m)
    (hk : statedLimit qv = some k) (hmr : fitsInt32 m = true) (hkr : fitsInt32 k = true)
    (hwt : ∀ v ∈ vs, v.isObject = true → wellTypedRecord v = true)
    (himp : ∀ v ∈ vs, v.isObject = true → importanceFits v = true) :
    ∃ out : List JsValue, Search sort (.array vs :: qv :: more) = .ok (.array out) ∧
      (0 : Int) ≤ (out.length : Int) ∧ (out.length : Int) ≤ max k 0 ∧
      (k < 0 → out.length = 0) ∧
      out.length ≤ ((vs.filter JsValue.isObject).filter (entryPasses t m)).length := by
  obtain ⟨rows, hrows, hs⟩ := Search_of_stated sort vs qv more t m k hobj ht hm hk hwt
  refine ⟨_, hs, Int.natCast_nonneg _, ?_⟩
  rw [wrap32_of_fits m hmr, wrap32_of_fits k hkr] at *
  rw [List.length_map, selected_length]
  have hc := passing_count t m k vs rows hrows himp
  have h := outCount_le_limit (sort.run (rows.filter (passes (Query.mk t m k)))) k
  show ((min (outCount (sort.run (rows.filter (passes (Query.mk t m k)))) k).toNat
      (rows.filter (passes (Query.mk t m k))).length : Nat) : Int) ≤ max k 0 ∧
    (k < 0 → min (outCount (sort.run (rows.filter (passes (Query.mk t m k)))) k).toNat
      (rows.filter (passes (Query.mk t m k))).length = 0) ∧
    min (outCount (sort.run (rows.filter (passes (Query.mk t m k)))) k).toNat
      (rows.filter (passes (Query.mk t m k))).length ≤ _
  rw [← hc]
  refine ⟨by omega, fun hneg => by omega, Nat.min_le_right _ _⟩

theorem Search_length_bound_witness :
    ∃ out : List JsValue,
      Search stableSort (.array exampleRows :: .object [("limit", .number 2)] :: []) =
        .ok (.array out) ∧
      (0 : Int) ≤ (out.length : Int) ∧ (out.length : Int) ≤ max 2 0 ∧
      ((2 : Int) < 0 → out.length = 0) ∧
      out.length ≤ ((exampleRows.filter JsValue.isObject).filter (entryPasses "" 1)).length :=
  Search_length_bound stableSort exampleRows (.object [("limit", .number 2)]) [] "" 1 2
    (by rfl) (by rfl) (by rfl) (by rfl) (by decide) (by decide) (by decide) (by decide)

/-- C6, as stated, fails: the negative limit `-4294967294` is read into an
`int` as `2`, and two records are returned. -/
theorem Search_nonpositive_limit_counterexample :
    statedLimit (.object [("limit", .number (-4294967294))]) = some (-4294967294) ∧
      (-4294967294 : Int) ≤ 0 ∧
      Search stableSort
          (.array exampleRows :: .object [("limit", .number (-4294967294))] :: []) =
        .ok (.array [rowToJs (Row.mk 3 5 9 "b" "z"), rowToJs (Row.mk 2 20 5 "a" "y")]) := by
  refine ⟨by rfl, by decide, by rfl⟩

/-- C6, amended. Non-positive limit: for a query whose limit is `0` or negative
and lies in the range of a 32-bit signed integer, the call returns the empty
array, whatever passes the filter. -/
theorem Search_nonpositive_limit (sort : StdSort) (vs : List JsValue) (qv : JsValue)
    (more : List JsValue) (t : String) (m k : Int) (hobj : qv.isObject = true)
    (ht : statedTopic qv = some t) (hm : statedImportanceMin qv = some m)
    (hk : statedLimit qv = some k) (hkr : fitsInt32 k = true)
    (hwt : ∀ v ∈ vs, v.isObject = true → wellTypedRecord v = true) (hlimit : k ≤ 0) :
    Search sort (.array vs :: qv :: more) = .ok (.array []) := by
  obtain ⟨rows, _, hs⟩ := Search_of_stated sort vs qv more t m k hobj ht hm hk hwt
  rw [hs, wrap32_of_fits k hkr]
  have h := outCount_le_limit (sort.run (rows.filter (passes (Query.mk t (wrap32 m) k)))) k
  have h0 : (outCount (sort.run (rows.filter (passes (Query.mk t (wrap32 m) k)))) k).toNat = 0 := by
    omega
  unfold selected
  show Except.ok (JsValue.array (((sort.run (rows.filter (passes (Query.mk t (wrap32 m) k)))).take
    (outCount (sort.run (rows.filter (passes (Query.mk t (wrap32 m) k)))) k).toNat).map rowToJs)) = _
  rw [h0]
  rfl

theorem Search_nonpositive_limit_witness :
    Search stableSort (.array exampleRows :: .object [("limit", .number (-3))] :: []) =
      .ok (.array []) :=
  Search_nonpositive_limit stableSort exampleRows (.object [("limit", .number (-3))]) []
    "" 1 (-3) (by rfl) (by rfl) (by rfl) (by rfl) (by decide) (by decide) (by decide)

/-! ## No fabrication, on the arguments as given -/

theorem clamp64_of_fits (n : Int) (h : fitsInt64 n = true) : clamp64 n = n := by
  unfold fitsInt64 at h
  rw [decide_eq_true_eq] at h
  unfold clamp64
  obtain ⟨h1, h2⟩ := h
  norm_num at h1 h2 ⊢
  omega

theorem readRow_proper (v : JsValue) (h : properRecord v = true) :
    ∃ r, readRow v = .ok r ∧ rowToJs r = fiveFields v := by
  unfold properRecord at h
  cases h1 : v.get "id" <;> rw [h1] at h <;> try (simp at h)
  rename_i i
  cases h2 : v.get "ts" <;> rw [h2] at h <;> try (simp at h)
  rename_i ts
  cases h3 : v.get "importance" <;> rw [h3] at h <;> try (simp at h)
  rename_i p
  cases h4 : v.get "topic" <;> rw [h4] at h <;> try (simp at h)
  rename_i s
  cases h5 : v.get "content" <;> rw [h5] at h <;> try (simp at h)
  rename_i c
  obtain ⟨⟨⟨⟨hi, hdi⟩, ht⟩, hdt⟩, hp⟩ := h
  refine ⟨Row.mk i ts p s c, ?_, ?_⟩
  · unfold readRow
    rw [h1, h2, h3, h4, h5]
    show Except.ok (Row.mk (clamp64 i) (clamp64 ts) (wrap32 p) s c) = _
    rw [clamp64_of_fits i hi, clamp64_of_fits ts ht, wrap32_of_fits p hp]
  · unfold rowToJs fiveFields
    rw [h1, h2, h3, h4, h5]
    show JsValue.object [("id", .number (toDouble i)), ("ts", .number (toDouble ts)),
      ("importance", .number p), ("topic", .string s), ("content", .string c)] = _
    rw [hdi, hdt]

theorem inputRecords_proper :
    ∀ vs : List JsValue, (∀ v ∈ vs, v.isObject = true → properRecord v = true) →
      ∃ rows, inputRecords vs = .ok rows ∧
        rows.map rowToJs = (vs.filter JsValue.isObject).map fiveFields
  | [], _ => ⟨[], rfl, rfl⟩
  | v :: vs, h => by
    obtain ⟨rest, hrest, hmap⟩ :=
      inputRecords_proper vs (fun w hw => h w (List.mem_cons_of_mem _ hw))
    unfold inputRecords
    cases hv : v.isObject with
    | false =>
      simp only [Bool.false_eq_true, if_false]
      rw [List.filter_cons_of_neg (by simp [hv])]
      exact ⟨rest, hrest, hmap⟩
    | true =>
      obtain ⟨r, hr, hf⟩ := readRow_proper v (h v (List.mem_cons_self _ _) hv)
      simp only [if_true]
      rw [hr, hrest, List.filter_cons_of_pos hv]
      refine ⟨r :: rest, rfl, ?_⟩
      rw [List.map_cons, List.map_cons, hf, hmap]

/-- C7, as stated, fails: an `id` of `2^64` is returned as `2^63`, a `ts` of
`-2^64` as `-2^63`, and an importance of `2147483648` as `-2147483648`. -/
theorem Search_no_fabrication_counterexample :
    Search stableSort
        (.array [ .object [("id", .number 18446744073709551616), ("ts", .number 10),
            ("importance", .number 5), ("topic", .string "a"), ("content", .string "x")] ] ::
          .object [] :: []) =
      .ok (.array [ .object [("id", .number 9223372036854775808), ("ts", .number 10),
        ("importance", .number 5), ("topic", .string "a"), ("content", .string "x")] ]) ∧
    Search stableSort
        (.array [ .object [("id", .number 1), ("ts", .number (-18446744073709551616)),
            ("importance", .number 5), ("topic", .string "a"), ("content", .string "x")] ] ::
          .object [] :: []) =
      .ok (.array [ .object [("id", .number 1), ("ts", .number (-9223372036854775808)),
        ("importance", .number 5), ("topic", .string "a"), ("content", .string "x")] ]) ∧
    Search stableSort
        (.array [ .object [("id", .number 1), ("ts", .number 10),
            ("importance", .number 2147483648), ("topic", .string "a"),
            ("content", .string "x")] ] ::
          .object [("importance_min", .number (-2147483648))] :: []) =
      .ok (.array [ .object [("id", .number 1), ("ts", .number 10),
        ("importance", .number (-2147483648)), ("topic", .string "a"),
        ("content", .string "x")] ]) := by
  refine ⟨by rfl, by rfl, by rfl⟩

/-- C7, amended. No fabrication: for an input whose records have an `id` and a
`ts` in the range of a 64-bit signed integer and an importance in the range of
a 32-bit signed integer, each object of the output has the five fields of an
entry of the input, with the same values, and the output, as a multiset, is
below the multiset of the input records. -/
theorem Search_no_fabrication (sort : StdSort) (vs : List JsValue) (qv : JsValue)
    (more : List JsValue) (hobj : qv.isObject = true) (hq : wellTypedQuery qv = true)
    (hproper : ∀ v ∈ vs, v.isObject = true → properRecord v = true) :
    ∃ out : List JsValue, Search sort (.array vs :: qv :: more) = .ok (.array out) ∧
      (∀ o ∈ out, ∃ v ∈ vs, v.isObject = true ∧ o = fiveFields v) ∧
      out.Subperm ((vs.filter JsValue.isObject).map fiveFields) ∧
      (out : Multiset JsValue) ≤ (((vs.filter JsValue.isObject).map fiveFields : List JsValue) :
        Multiset JsValue) := by
  obtain ⟨q, hq2⟩ := readQuery_ok qv hq
  obtain ⟨rows, hrows, hmap⟩ := inputRecords_proper vs hproper
  have hsub : ((selected sort q rows).map rowToJs).Subperm
      ((vs.filter JsValue.isObject).map fiveFields) := by
    rw [← hmap]
    obtain ⟨l, hp, hl⟩ := selected_subperm sort q rows
    exact ⟨l.map rowToJs, hp.map rowToJs, hl.map rowToJs⟩
  refine ⟨_, Search_ok sort vs qv more q rows hobj hq2 hrows, ?_, hsub, Multiset.coe_le.2 hsub⟩
  intro o ho
  obtain ⟨w, hw, rfl⟩ := List.mem_map.1 (hsub.subset ho)
  obtain ⟨hw1, hw2⟩ := List.mem_filter.1 hw
  exact ⟨w, hw1, hw2, rfl⟩

theorem Search_no_fabrication_witness :
    ∃ out : List JsValue,
      Search stableSort (.array exampleRows :: .object [("topic", .string "a")] :: []) =
        .ok (.array out) ∧
      (∀ o ∈ out, ∃ v ∈ exampleRows, v.isObject = true ∧ o = fiveFields v) ∧
      out.Subperm ((exampleRows.filter JsValue.isObject).map fiveFields) ∧
      (out : Multiset JsValue) ≤
        (((exampleRows.filter JsValue.isObject).map fiveFields : List JsValue) :
          Multiset JsValue) :=
  Search_no_fabrication stableSort exampleRows (.object [("topic", .string "a")]) []
    (by rfl) (by rfl) (by decide)

/-! ## Determinism -/

/-- C17: the code on the failing input.  The two records of `collisionRows`
have different scores `importance * 100000 + ts`, `2^63 + 6400000` and
`-2^63 + 6400000`; the first sum overflows on line 46 and the comparator sees
two equal values, so the output follows the order of the input: the two
arrangements of the same records give different arrays. -/
theorem Search_input_order_failing :
    collisionRows.Perm collisionRows.reverse ∧
      collisionRows.map entryScore = [9223372036861175808, -9223372036848375808] ∧
      Search stableSort
          (.array collisionRows :: .object [("importance_min", .number 0)] :: []) =
        .ok (.array [rowToJs (Row.mk 1 9223372036848375808 128 "a" "x"),
          rowToJs (Row.mk 2 (-9223372036848375808) 0 "a" "y")]) ∧
      Search stableSort
          (.array collisionRows.reverse :: .object [("importance_min", .number 0)] :: []) =
        .ok (.array [rowToJs (Row.mk 2 (-9223372036848375808) 0 "a" "y"),
          rowToJs (Row.mk 1 9223372036848375808 128 "a" "x")]) ∧
      (rowToJs (Row.mk 1 9223372036848375808 128 "a" "x")).get "id" = .number 1 ∧
      (rowToJs (Row.mk 2 (-9223372036848375808) 0 "a" "y")).get "id" = .number 2 := by
  refine ⟨(List.reverse_perm collisionRows).symm, by rfl, by rfl, by rfl, by rfl, by rfl⟩

/-- C18, as stated, fails: for the limits `1 <= 2147483648` the outputs are the
record of id 3 and the empty array, the second limit being read into an `int`
as `-2147483648`. -/
theorem Search_limit_monotone_counterexample :
    statedLimit (.object [("limit", .number 1)]) = some 1 ∧
      statedLimit (.object [("limit", .number 2147483648)]) = some 2147483648 ∧
      (0 : Int) ≤ 1 ∧ (1 : Int) ≤ 2147483648 ∧
      Search stableSort (.array exampleRows :: .object [("limit", .number 1)] :: []) =
        .ok (.array [rowToJs (Row.mk 3 5 9 "b" "z")]) ∧
      Search stableSort (.array exampleRows :: .object [("limit", .number 2147483648)] :: []) =
        .ok (.array []) ∧
      ¬ ([rowToJs (Row.mk 3 5 9 "b" "z")] <+: ([] : List JsValue)) := by
  refine ⟨by rfl, by rfl, by decide, by decide, by rfl, by rfl, ?_⟩
  rintro ⟨t, ht⟩
  cases ht

/-- C18, amended. Limit monotonicity: for two queries with the same topic
filter and `importance_min` and limits `0 <= k <= k'` that both lie in the
range of a 32-bit signed integer, the output for `k` is an initial segment of
the output for `k'`. -/
theorem Search_limit_monotone (sort : StdSort) (vs : List JsValue) (qv1 qv2 : JsValue)
    (more1 more2 : List JsValue) (t : String) (m k1 k2 : Int)
    (hobj1 : qv1.isObject = true) (hobj2 : qv2.isObject = true)
    (ht1 : statedTopic qv1 = some t) (ht2 : statedTopic qv2 = some t)
    (hm1 : statedImportanceMin qv1 = some m) (hm2 : statedImportanceMin qv2 = some m)
    (hk1 : statedLimit qv1 = some k1) (hk2 : statedLimit qv2 = some k2)
    (hkr1 : fitsInt32 k1 = true) (hkr2 : fitsInt32 k2 = true)
    (hwt : ∀ v ∈ vs, v.isObject = true → wellTypedRecord v = true)
    (h0 : 0 ≤ k1) (hle : k1 ≤ k2) :
    ∃ out1 out2 : List JsValue,
      Search sort (.array vs :: qv1 :: more1) = .ok (.array out1) ∧
      Search sort (.array vs :: qv2 :: more2) = .ok (.array out2) ∧
      out1 <+: out2 ∧ (out1.length : Int) ≤ k1 := by
  obtain ⟨rows, hrows⟩ := inputRecords_ok vs hwt
  have hq1 := readQuery_of_stated qv1 t m k1 ht1 hm1 hk1
  have hq2 := readQuery_of_stated qv2 t m k2 ht2 hm2 hk2
  rw [wrap32_of_fits k1 hkr1] at hq1
  rw [wrap32_of_fits k2 hkr2] at hq2
  refine ⟨_, _, Search_ok sort vs qv1 more1 _ rows hobj1 hq1 hrows,
    Search_ok sort vs qv2 more2 _ rows hobj2 hq2 hrows, ?_, ?_⟩
  · have hsel : selected sort (Query.mk t (wrap32 m) k1) rows <+:
        selected sort (Query.mk t (wrap32 m) k2) rows := by
      unfold selected
      exact take_initial_segment _ _ _ (outCount_mono _ _ _ hle)
    obtain ⟨tl, htl⟩ := hsel
    exact ⟨tl.map rowToJs, by rw [← List.map_append, htl]⟩
  · rw [List.length_map, selected_length]
    have h := outCount_le_limit
      (sort.run (rows.filter (passes (Query.mk t (wrap32 m) k1)))) k1
    show ((min (outCount (sort.run (rows.filter (passes (Query.mk t (wrap32 m) k1)))) k1).toNat
      (rows.filter (passes (Query.mk t (wrap32 m) k1))).length : Nat) : Int) ≤ k1
    omega

theorem Search_limit_monotone_witness :
    ∃ out1 out2 : List JsValue,
      Search stableSort (.array exampleRows :: .object [("limit", .number 1)] :: []) =
        .ok (.array out1) ∧
      Search stableSort (.array exampleRows :: .object [("limit", .number 2)] :: []) =
        .ok (.array out2) ∧
      out1 <+: out2 ∧ (out1.length : Int) ≤ 1 :=
  Search_limit_monotone stableSort exampleRows (.object [("limit", .number 1)])
    (.object [("limit", .number 2)]) [] [] "" 1 1 2
    (by rfl) (by rfl) (by rfl) (by rfl) (by rfl) (by rfl) (by rfl) (by rfl)
    (by decide) (by decide) (by decide) (by decide) (by decide)

end MemorySearch
